import Mathlib

/-!
# ADXL372 three-axis accelerometer driver: a shallow embedding

Source: `drivers/iio/accel/adxl372.c`.

Conventions of the embedding

* C integers are natural numbers (or `Int` for `int` return codes); a store
  into a `u8`/`u16` object is an explicit `% 256` / `% 65536`.
* The register map (`struct regmap`) is the only door to the device.  It is
  modelled as a deterministic responder: a function from the history of
  transfers and the transfer being issued to a reply, together with the log
  of the transfers issued so far.  A theorem that quantifies over the
  register map holds for every behaviour of the bus and of the device.
* The transfer buffer `st->data` is scratch storage: each driver function
  fills it right before the transfer that consumes it, so the model hands
  the bytes to the transfer directly.
* A driver function that returns `int` and updates `*st` is a function from
  the state and the register map to a record holding the return code, the
  new state and the new register map.
-/

namespace ADXL372

/-! ## Register addresses and field encodings -/

def ADXL372_DEVID : Nat := 0x00
def ADXL372_STATUS_1 : Nat := 0x04
def ADXL372_X_DATA_H : Nat := 0x08
def ADXL372_Y_DATA_H : Nat := 0x0A
def ADXL372_Z_DATA_H : Nat := 0x0C
def ADXL372_X_THRESH_ACT_H : Nat := 0x23
def ADXL372_TIME_ACT : Nat := 0x29
def ADXL372_X_THRESH_INACT_H : Nat := 0x2A
def ADXL372_TIME_INACT_L : Nat := 0x31
def ADXL372_X_THRESH_ACT2_H : Nat := 0x32
def ADXL372_FIFO_SAMPLES : Nat := 0x39
def ADXL372_FIFO_CTL : Nat := 0x3A
def ADXL372_INT1_MAP : Nat := 0x3B
def ADXL372_INT2_MAP : Nat := 0x3C
def ADXL372_TIMING : Nat := 0x3D
def ADXL372_MEASURE : Nat := 0x3E
def ADXL372_POWER_CTL : Nat := 0x3F
def ADXL372_FIFO_DATA : Nat := 0x42

def ADXL372_DEVID_VAL : Nat := 0xAD

/-- The macro `ADXL372_REG_READ(x)`: `((x & 0xFF) << 1) | 0x01`. -/
def ADXL372_REG_READ (x : Nat) : Nat := ((x &&& 0xFF) <<< 1) ||| 0x01

/-- The macro `ADXL372_REG_WRITE(x)`: `(x & 0xFF) << 1`. -/
def ADXL372_REG_WRITE (x : Nat) : Nat := (x &&& 0xFF) <<< 1

/-- The mask `GENMASK(1, 0)` of the mode field of POWER_CTL. -/
def ADXL372_POWER_CTL_MODE_MSK : Nat := 0x03
def ADXL372_POWER_CTL_MODE (x : Nat) : Nat := (x &&& 0x3) <<< 0

/-- The mask `GENMASK(5, 4)` of the link/loop field of MEASURE. -/
def ADXL372_MEASURE_LINKLOOP_MSK : Nat := 0x30
def ADXL372_MEASURE_LINKLOOP_MODE (x : Nat) : Nat := (x &&& 0x3) <<< 4

/-- The mask `GENMASK(2, 0)` of the bandwidth field of MEASURE. -/
def ADXL372_MEASURE_BANDWIDTH_MSK : Nat := 0x07
def ADXL372_MEASURE_BANDWIDTH_MODE (x : Nat) : Nat := (x &&& 0x7) <<< 0

/-- The mask `GENMASK(7, 5)` of the data-rate field of TIMING. -/
def ADXL372_TIMING_ODR_MSK : Nat := 0xE0
def ADXL372_TIMING_ODR_MODE (x : Nat) : Nat := (x &&& 0x7) <<< 5

def ADXL372_FIFO_CTL_FORMAT_MODE (x : Nat) : Nat := (x &&& 0x7) <<< 3
def ADXL372_FIFO_CTL_MODE_MODE (x : Nat) : Nat := (x &&& 0x3) <<< 1
def ADXL372_FIFO_CTL_SAMPLES_MODE (x : Nat) : Nat := if x > 0xFF then 1 else 0

def ADXL372_STATUS_1_DATA_RDY (x : Nat) : Nat := (x >>> 0) &&& 0x1
def ADXL372_STATUS_1_FIFO_RDY (x : Nat) : Nat := (x >>> 1) &&& 0x1
def ADXL372_STATUS_1_FIFO_FULL (x : Nat) : Nat := (x >>> 2) &&& 0x1
def ADXL372_STATUS_1_FIFO_OVR (x : Nat) : Nat := (x >>> 3) &&& 0x1
def ADXL372_STATUS_1_USR_NVM_BUSY (x : Nat) : Nat := (x >>> 5) &&& 0x1
def ADXL372_STATUS_1_AWAKE (x : Nat) : Nat := (x >>> 6) &&& 0x1
def ADXL372_STATUS_1_ERR_USR_REGS (x : Nat) : Nat := (x >>> 7) &&& 0x1

/-- The mask `BIT(2)`: FIFO-full source of interrupt line 1. -/
def ADXL372_INT1_MAP_FIFO_FULL_MSK : Nat := 0x04

def ADXL372_FIFO_SIZE : Nat := 512

/-- Error numbers of `errno-base.h` used by the driver. -/
def EBUSY : Int := 16
def ENODEV : Int := 19
def EINVAL : Int := 22

/-- Return codes of `read_raw` (`IIO_VAL_INT`, `IIO_VAL_INT_PLUS_MICRO`). -/
def IIO_VAL_INT : Int := 1
def IIO_VAL_INT_PLUS_MICRO : Int := 2

def ADXL372_USCALE : Int := 958241

/-! ## Enumerations -/

inductive adxl372_op_mode where
  | ADXL372_STANDBY
  | ADXL372_WAKE_UP
  | ADXL372_INSTANT_ON
  | ADXL372_FULL_BW_MEASUREMENT
deriving DecidableEq, Repr

def adxl372_op_mode.toNat : adxl372_op_mode → Nat
  | .ADXL372_STANDBY => 0
  | .ADXL372_WAKE_UP => 1
  | .ADXL372_INSTANT_ON => 2
  | .ADXL372_FULL_BW_MEASUREMENT => 3

inductive adxl372_act_proc_mode where
  | ADXL372_DEFAULT
  | ADXL372_LINKED
  | ADXL372_LOOPED
deriving DecidableEq, Repr

def adxl372_act_proc_mode.toNat : adxl372_act_proc_mode → Nat
  | .ADXL372_DEFAULT => 0
  | .ADXL372_LINKED => 1
  | .ADXL372_LOOPED => 2

inductive adxl372_th_activity where
  | ADXL372_ACTIVITY
  | ADXL372_ACTIVITY2
  | ADXL372_INACTIVITY
deriving DecidableEq, Repr

inductive adxl372_threshold_en where
  | ADXL372_THRESHOLD_DIS
  | ADXL372_THRESHOLD_EN
deriving DecidableEq, Repr

def adxl372_threshold_en.toNat : adxl372_threshold_en → Nat
  | .ADXL372_THRESHOLD_DIS => 0
  | .ADXL372_THRESHOLD_EN => 1

inductive adxl372_threshold_ref_en where
  | ADXL372_THRESHOLD_REF_DIS
  | ADXL372_THRESHOLD_REF_EN
deriving DecidableEq, Repr

def adxl372_threshold_ref_en.toNat : adxl372_threshold_ref_en → Nat
  | .ADXL372_THRESHOLD_REF_DIS => 0
  | .ADXL372_THRESHOLD_REF_EN => 1

inductive adxl372_odr where
  | ADXL372_ODR_400HZ
  | ADXL372_ODR_800HZ
  | ADXL372_ODR_1600HZ
  | ADXL372_ODR_3200HZ
  | ADXL372_ODR_6400HZ
deriving DecidableEq, Repr

def adxl372_odr.toNat : adxl372_odr → Nat
  | .ADXL372_ODR_400HZ => 0
  | .ADXL372_ODR_800HZ => 1
  | .ADXL372_ODR_1600HZ => 2
  | .ADXL372_ODR_3200HZ => 3
  | .ADXL372_ODR_6400HZ => 4

inductive adxl372_bandwidth where
  | ADXL372_BW_200HZ
  | ADXL372_BW_400HZ
  | ADXL372_BW_800HZ
  | ADXL372_BW_1600HZ
  | ADXL372_BW_3200HZ
deriving DecidableEq, Repr

def adxl372_bandwidth.toNat : adxl372_bandwidth → Nat
  | .ADXL372_BW_200HZ => 0
  | .ADXL372_BW_400HZ => 1
  | .ADXL372_BW_800HZ => 2
  | .ADXL372_BW_1600HZ => 3
  | .ADXL372_BW_3200HZ => 4

inductive adxl372_fifo_format where
  | ADXL372_XYZ_FIFO
  | ADXL372_X_FIFO
  | ADXL372_Y_FIFO
  | ADXL372_XY_FIFO
  | ADXL372_Z_FIFO
  | ADXL372_XZ_FIFO
  | ADXL372_YZ_FIFO
  | ADXL372_XYZ_PEAK_FIFO
deriving DecidableEq, Repr

def adxl372_fifo_format.toNat : adxl372_fifo_format → Nat
  | .ADXL372_XYZ_FIFO => 0
  | .ADXL372_X_FIFO => 1
  | .ADXL372_Y_FIFO => 2
  | .ADXL372_XY_FIFO => 3
  | .ADXL372_Z_FIFO => 4
  | .ADXL372_XZ_FIFO => 5
  | .ADXL372_YZ_FIFO => 6
  | .ADXL372_XYZ_PEAK_FIFO => 7

inductive adxl372_fifo_mode where
  | ADXL372_FIFO_BYPASSED
  | ADXL372_FIFO_STREAMED
  | ADXL372_FIFO_TRIGGERED
  | ADXL372_FIFO_OLD_SAVED
deriving DecidableEq, Repr

def adxl372_fifo_mode.toNat : adxl372_fifo_mode → Nat
  | .ADXL372_FIFO_BYPASSED => 0
  | .ADXL372_FIFO_STREAMED => 1
  | .ADXL372_FIFO_TRIGGERED => 2
  | .ADXL372_FIFO_OLD_SAVED => 3

open adxl372_op_mode adxl372_act_proc_mode adxl372_th_activity adxl372_threshold_en
  adxl372_threshold_ref_en adxl372_odr adxl372_bandwidth adxl372_fifo_format
  adxl372_fifo_mode

/-! ## The register map -/

/-- A transfer the driver asks of the register map.  The register argument is
the one the driver passes (already run through `ADXL372_REG_READ` or
`ADXL372_REG_WRITE`). -/
inductive Txn where
  | read (reg : Nat)
  | write (reg val : Nat)
  | bulk_read (reg count : Nat)
  | bulk_write (reg : Nat) (bytes : List Nat)
deriving DecidableEq, Repr

/-- The answer of the register map to one transfer: the `int` it returns
(negative on failure) and, for a read, the bytes it delivers. -/
structure Reply where
  ret : Int
  bytes : List Nat

/-- One entry of the log: the transfer and the code it returned. -/
structure Xfer where
  txn : Txn
  ret : Int
deriving DecidableEq, Repr

/-- Modelled from the spec: `struct regmap` and the bus behind it are outside
src/ (spec section 1: the transport is an external collaborator; section 5:
each register operation runs to completion, success or error, before the
next is issued).  `respond` answers a transfer given everything issued
before it, `log` is the list of transfers issued so far, oldest first. -/
structure regmap where
  respond : List Xfer → Txn → Reply
  log : List Xfer

/-- Issue one transfer: ask the responder and append to the log. -/
def regmap.issue (map : regmap) (t : Txn) : Reply × regmap :=
  let r := map.respond map.log t
  (r, { map with log := map.log ++ [⟨t, r.ret⟩] })

/-- Modelled from the spec: `regmap_read` is outside src/.  With
`.val_bits = 8` (`adxl372_spi_regmap_config`) the value delivered is one
byte.  The value is meaningful only when the return code is not negative. -/
def regmap_read (map : regmap) (reg : Nat) : Int × Nat × regmap :=
  let (r, map) := map.issue (Txn.read reg)
  (r.ret, r.bytes.getD 0 0 % 256, map)

/-- Modelled from the spec: `regmap_write` is outside src/. -/
def regmap_write (map : regmap) (reg val : Nat) : Int × regmap :=
  let (r, map) := map.issue (Txn.write reg val)
  (r.ret, map)

/-- Modelled from the spec: `regmap_bulk_read` is outside src/.  The bytes
stored into the `u8` destination are returned as a function of the index in
the destination. -/
def regmap_bulk_read (map : regmap) (reg count : Nat) : Int × (Nat → Nat) × regmap :=
  let (r, map) := map.issue (Txn.bulk_read reg count)
  (r.ret, fun i => r.bytes.getD i 0 % 256, map)

/-- Modelled from the spec: `regmap_bulk_write` is outside src/. -/
def regmap_bulk_write (map : regmap) (reg : Nat) (bytes : List Nat) : Int × regmap :=
  let (r, map) := map.issue (Txn.bulk_write reg bytes)
  (r.ret, map)

/-! ## Device state -/

/-- The fields of `struct adxl372_state` that hold driver state (the pointers
`spi`, `regmap`, `dready_trig` and the transfer buffer are not state of the
model; the register map is passed alongside). -/
structure adxl372_state where
  fifo_mode : adxl372_fifo_mode
  fifo_format : adxl372_fifo_format
  op_mode : adxl372_op_mode
  act_proc_mode : adxl372_act_proc_mode
  odr : adxl372_odr
  bw : adxl372_bandwidth
  fifo_set_size : Nat
  int1_bitmask : Nat
  int2_bitmask : Nat
  watermark : Nat
deriving DecidableEq, Repr

/-- What a driver function leaves behind: its return code, the state and the
register map. -/
structure Res where
  ret : Int
  st : adxl372_state
  map : regmap

/-- The state right after `devm_iio_device_alloc` (zeroed memory). -/
def adxl372_state.zero : adxl372_state :=
  { fifo_mode := ADXL372_FIFO_BYPASSED, fifo_format := ADXL372_XYZ_FIFO,
    op_mode := ADXL372_STANDBY, act_proc_mode := ADXL372_DEFAULT,
    odr := ADXL372_ODR_400HZ, bw := ADXL372_BW_200HZ,
    fifo_set_size := 0, int1_bitmask := 0, int2_bitmask := 0, watermark := 0 }

/-! ## Register helpers -/

/-- The read-modify-write of `adxl372_spi_write_mask` on the 16-bit scratch
word `st->data.regval`: `regval &= ~mask; regval |= data;` with `mask` an
`unsigned int` (below 2^32, so `~mask` is the 32-bit complement
`0xFFFFFFFF ^ mask`) and `data` a `u8`. -/
def masked_update (regval mask data : Nat) : Nat :=
  ((regval &&& (0xFFFFFFFF ^^^ mask)) % 65536 ||| data) % 65536

/-- The function `adxl372_spi_write_mask`.  The value read is stored through
an `unsigned int *` over the little-endian 16-bit word `regval`. -/
def adxl372_spi_write_mask (map : regmap) (reg_addr mask data : Nat) : Int × regmap :=
  let (ret, val, map) := regmap_read map (ADXL372_REG_READ reg_addr)
  if ret < 0 then (ret, map)
  else
    let regval := val % 65536
    regmap_write map (ADXL372_REG_WRITE reg_addr) (masked_update regval mask data)

/-- The function `adxl372_read_fifo`: one bulk read of `fifo_entries * 2`
bytes from the FIFO data register into `st->data.d8`. -/
def adxl372_read_fifo (map : regmap) (fifo_entries : Nat) : Int × regmap :=
  let (ret, _, map) := regmap_bulk_read map (ADXL372_REG_READ ADXL372_FIFO_DATA)
    (fifo_entries * 2)
  if ret < 0 then (ret, map) else (0, map)

/-- Modelled from the spec: `be16_to_cpu` is outside src/ (spec 4.7:
big-endian to host-order conversion): first byte is the high byte. -/
def be16_to_cpu (b0 b1 : Nat) : Nat := (b0 <<< 8) ||| b1

/-- The function `adxl372_read_axis`: a 2-byte bulk read, returned as a
big-endian 16-bit value, or the negative code of the failed read. -/
def adxl372_read_axis (map : regmap) (addr : Nat) : Int × regmap :=
  let (ret, buf, map) := regmap_bulk_read map (ADXL372_REG_READ addr) 2
  if ret < 0 then (ret, map) else ((be16_to_cpu (buf 0) (buf 1) : Nat), map)

/-- The function `adxl372_set_op_mode`. -/
def adxl372_set_op_mode (st : adxl372_state) (map : regmap) (op_mode : adxl372_op_mode) : Res :=
  let (ret, map) := adxl372_spi_write_mask map ADXL372_POWER_CTL ADXL372_POWER_CTL_MODE_MSK
    (ADXL372_POWER_CTL_MODE op_mode.toNat % 256)
  if ret < 0 then ⟨ret, st, map⟩ else ⟨ret, { st with op_mode := op_mode }, map⟩

/-- The function `adxl372_set_odr`. -/
def adxl372_set_odr (st : adxl372_state) (map : regmap) (odr : adxl372_odr) : Res :=
  let (ret, map) := adxl372_spi_write_mask map ADXL372_TIMING ADXL372_TIMING_ODR_MSK
    (ADXL372_TIMING_ODR_MODE odr.toNat % 256)
  if ret < 0 then ⟨ret, st, map⟩ else ⟨ret, { st with odr := odr }, map⟩

/-- The function `adxl372_set_bandwidth`. -/
def adxl372_set_bandwidth (st : adxl372_state) (map : regmap) (bw : adxl372_bandwidth) : Res :=
  let (ret, map) := adxl372_spi_write_mask map ADXL372_MEASURE ADXL372_MEASURE_BANDWIDTH_MSK
    (ADXL372_MEASURE_BANDWIDTH_MODE bw.toNat % 256)
  if ret < 0 then ⟨ret, st, map⟩ else ⟨ret, { st with bw := bw }, map⟩

/-- The function `adxl372_set_act_proc_mode`. -/
def adxl372_set_act_proc_mode (st : adxl372_state) (map : regmap)
    (mode : adxl372_act_proc_mode) : Res :=
  let (ret, map) := adxl372_spi_write_mask map ADXL372_MEASURE ADXL372_MEASURE_LINKLOOP_MSK
    (ADXL372_MEASURE_LINKLOOP_MODE mode.toNat % 256)
  if ret < 0 then ⟨ret, st, map⟩ else ⟨ret, { st with act_proc_mode := mode }, map⟩

/-- The byte `th_reg_high_val` of `adxl372_set_activity_threshold`
(`u8`, threshold a `u32`). -/
def th_reg_high_val (threshold : Nat) : Nat :=
  (((threshold % 4294967296) / 100) >>> 3) % 256

/-- The byte `th_reg_low_val` of `adxl372_set_activity_threshold`. -/
def th_reg_low_val (ref : adxl372_threshold_ref_en) (enable : adxl372_threshold_en)
    (threshold : Nat) : Nat :=
  (((((threshold % 4294967296) / 100) <<< 5) % 4294967296) ||| (ref.toNat <<< 1)
    ||| enable.toNat) % 256

/-- The switch of `adxl372_set_activity_threshold` on the activity class. -/
def th_reg_high_addr : adxl372_th_activity → Nat
  | .ADXL372_ACTIVITY => ADXL372_X_THRESH_ACT_H
  | .ADXL372_ACTIVITY2 => ADXL372_X_THRESH_ACT2_H
  | .ADXL372_INACTIVITY => ADXL372_X_THRESH_INACT_H

/-- The function `adxl372_set_activity_threshold`: the same (high, low) pair
for the three axes, in one bulk write of six bytes. -/
def adxl372_set_activity_threshold (st : adxl372_state) (map : regmap)
    (act : adxl372_th_activity) (ref : adxl372_threshold_ref_en)
    (enable : adxl372_threshold_en) (threshold : Nat) : Res :=
  let hi := th_reg_high_val threshold
  let lo := th_reg_low_val ref enable threshold
  let (ret, map) := regmap_bulk_write map (ADXL372_REG_WRITE (th_reg_high_addr act))
    [hi, lo, hi, lo, hi, lo]
  ⟨ret, st, map⟩

/-- The function `adxl372_set_interrupts`. -/
def adxl372_set_interrupts (st : adxl372_state) (map : regmap)
    (int1_bitmask int2_bitmask : Nat) : Res :=
  let (ret, map) := regmap_bulk_write map (ADXL372_REG_WRITE ADXL372_INT1_MAP)
    [int1_bitmask % 256, int2_bitmask % 256]
  if ret < 0 then ⟨ret, st, map⟩
  else ⟨ret, { st with int1_bitmask := int1_bitmask % 256,
                       int2_bitmask := int2_bitmask % 256 }, map⟩

/-- The two bytes `adxl372_configure_fifo` stores in `d8[0]` and `d8[1]`. -/
def fifo_samples_byte (st : adxl372_state) : Nat := (st.watermark &&& 0xFF) % 256

def fifo_ctl_byte (st : adxl372_state) : Nat :=
  (ADXL372_FIFO_CTL_FORMAT_MODE st.fifo_format.toNat |||
    ADXL372_FIFO_CTL_MODE_MODE st.fifo_mode.toNat |||
    ADXL372_FIFO_CTL_SAMPLES_MODE st.watermark) % 256

/-- The function `adxl372_configure_fifo`. -/
def adxl372_configure_fifo (st : adxl372_state) (map : regmap) : Res :=
  let r := adxl372_set_op_mode st map ADXL372_STANDBY
  if r.ret < 0 then r
  else
    let (ret, map) := regmap_bulk_write r.map (ADXL372_REG_WRITE ADXL372_FIFO_SAMPLES)
      [fifo_samples_byte r.st, fifo_ctl_byte r.st]
    if ret < 0 then ⟨ret, r.st, map⟩
    else adxl372_set_op_mode r.st map ADXL372_FULL_BW_MEASUREMENT

/-- What `adxl372_get_status` leaves behind: the return code and the three
out-parameters (meaningful when the code is not negative). -/
structure StatusRes where
  ret : Int
  status1 : Nat
  status2 : Nat
  fifo_entries : Nat
  map : regmap

/-- The function `adxl372_get_status`.  On failure the out-parameters are not
written; the model reports the values `s1 s2 fe` they held before. -/
def adxl372_get_status (map : regmap) (s1 s2 fe : Nat) : StatusRes :=
  let (ret, d8, map) := regmap_bulk_read map (ADXL372_REG_READ ADXL372_STATUS_1) 4
  if ret < 0 then ⟨ret, s1, s2, fe, map⟩
  else ⟨ret, d8 0, d8 1, (((d8 2 &&& 0x3) <<< 8) ||| d8 3) % 65536, map⟩

/-! ## The trigger handler -/

/-- What the handler does to its collaborators besides bus transfers: a push
of the sample set that starts at byte `offset` of `st->data.d8`
(`iio_push_to_buffers_with_timestamp`) and the final
`iio_trigger_notify_done`. -/
inductive Event where
  | push (offset : Nat)
  | notify_done
deriving DecidableEq, Repr

/-- The loop `for (i = 0; i < fifo_entries * 2; i += st->fifo_set_size * 2)`
of `adxl372_trigger_handler`, entered with the current `i`; `i` is a `u16`,
`limit` is the `int` `fifo_entries * 2`, `step` the `int`
`st->fifo_set_size * 2`.  The loop need not terminate, so it runs on fuel
and yields `none` when the fuel is spent. -/
def push_loop : Nat → Nat → Nat → Nat → Option (List Event)
  | 0, _, _, _ => none
  | fuel + 1, i, limit, step =>
    if i < limit then
      (push_loop fuel ((i + step) % 65536) limit step).map (fun evs => Event.push i :: evs)
    else some []

/-- The `u16` subtraction `fifo_entries -= st->fifo_set_size`. -/
def fifo_entries_sub (fifo_entries fifo_set_size : Nat) : Nat :=
  (((fifo_entries : Int) - (fifo_set_size : Int)) % 65536).toNat

/-- The function `adxl372_trigger_handler`: the register map it leaves and
the events it produced, in order; `none` when the push loop has not finished
within `fuel` iterations.  It always returns `IRQ_HANDLED`. -/
def adxl372_trigger_handler (fuel : Nat) (st : adxl372_state) (map : regmap) :
    Option (regmap × List Event) :=
  let s := adxl372_get_status map 0 0 0
  if s.ret < 0 then some (s.map, [Event.notify_done])
  else if st.fifo_mode ≠ ADXL372_FIFO_BYPASSED ∧ ADXL372_STATUS_1_FIFO_FULL s.status1 ≠ 0 then
    let fifo_entries := fifo_entries_sub s.fifo_entries st.fifo_set_size
    let (ret, map) := adxl372_read_fifo s.map fifo_entries
    if ret < 0 then some (map, [Event.notify_done])
    else
      (push_loop fuel 0 (fifo_entries * 2) (st.fifo_set_size * 2)).map
        (fun evs => (map, evs ++ [Event.notify_done]))
  else some (s.map, [Event.notify_done])

/-! ## Device bring-up -/

/-- The idiom `ret = step(...); if (ret < 0) return ret;` followed by the
rest of the function: the rest runs on the state and register map the step
left, and only when the step did not fail. -/
def Res.andThen (r : Res) (rest : adxl372_state → regmap → Res) : Res :=
  if r.ret < 0 then r else rest r.st r.map

/-- A bare `regmap_write` as a step of a sequence: the state is untouched. -/
def write_step (st : adxl372_state) (map : regmap) (reg val : Nat) : Res :=
  let (ret, map) := regmap_write map reg val
  ⟨ret, st, map⟩

/-- The function `adxl372_setup`. -/
def adxl372_setup (st : adxl372_state) (map : regmap) : Res :=
  let (ret, val, map) := regmap_read map (ADXL372_REG_READ ADXL372_DEVID)
  if ret < 0 then ⟨ret, st, map⟩
  else if val % 65536 ≠ ADXL372_DEVID_VAL then ⟨-ENODEV, st, map⟩
  else
    (adxl372_set_op_mode st map ADXL372_STANDBY).andThen fun st map =>
    (adxl372_set_activity_threshold st map ADXL372_ACTIVITY
      ADXL372_THRESHOLD_REF_EN ADXL372_THRESHOLD_EN 500).andThen fun st map =>
    (adxl372_set_activity_threshold st map ADXL372_INACTIVITY
      ADXL372_THRESHOLD_REF_EN ADXL372_THRESHOLD_EN 500).andThen fun st map =>
    (adxl372_set_act_proc_mode st map ADXL372_LOOPED).andThen fun st map =>
    (adxl372_set_odr st map ADXL372_ODR_6400HZ).andThen fun st map =>
    (adxl372_set_bandwidth st map ADXL372_BW_3200HZ).andThen fun st map =>
    (write_step st map (ADXL372_REG_WRITE ADXL372_TIME_ACT) 1).andThen fun st map =>
    (write_step st map (ADXL372_REG_WRITE ADXL372_TIME_INACT_L) 0x28).andThen fun st map =>
    adxl372_set_op_mode st map ADXL372_FULL_BW_MEASUREMENT

/-! ## Direct reads -/

/-- The fields of `struct iio_chan_spec` the driver reads. -/
structure iio_chan_spec where
  address : Nat
  realbits : Nat
  shift : Nat
deriving DecidableEq, Repr

/-- The macro `ADXL372_ACCEL_CHANNEL(index, reg, axis)`: 12 significant bits,
shifted left by 4 in 16 bits of storage. -/
def ADXL372_ACCEL_CHANNEL (reg : Nat) : iio_chan_spec :=
  { address := reg, realbits := 12, shift := 4 }

/-- The acceleration channels of `adxl372_channels` (scan indices 0, 1, 2). -/
def adxl372_channels : List iio_chan_spec :=
  [ADXL372_ACCEL_CHANNEL ADXL372_X_DATA_H, ADXL372_ACCEL_CHANNEL ADXL372_Y_DATA_H,
   ADXL372_ACCEL_CHANNEL ADXL372_Z_DATA_H]

/-- The fields of `struct iio_dev` the driver reads: whether a buffer is
enabled (`iio_buffer_enabled`), the active scan mask and its length. -/
structure iio_dev where
  buffer_enabled : Bool
  active_scan_mask : Nat
  masklength : Nat
deriving DecidableEq, Repr

/-- Modelled from the spec: `sign_extend32` is outside src/ (spec 4.7: the raw
value is sign-extended from its significant-bit width).  `index` is the
position of the sign bit (at most 31):
`(s32)(value << (31 - index)) >> (31 - index)`, the right shift being
arithmetic. -/
def sign_extend32 (value index : Nat) : Int :=
  let shift := 31 - index
  let x := (value <<< shift) % 4294967296
  let sx : Int := if x < 2147483648 then (x : Int) else (x : Int) - 4294967296
  sx / ((2 ^ shift : Nat) : Int)

/-- The selector `info` of `read_raw`. -/
inductive iio_chan_info where
  | IIO_CHAN_INFO_RAW
  | IIO_CHAN_INFO_SCALE
  | other
deriving DecidableEq, Repr

/-- What `adxl372_raw` leaves behind: return code, `*val`, `*val2`. -/
structure RawRes where
  ret : Int
  val : Int
  val2 : Int
  map : regmap

/-- The function `adxl372_raw`; `val` and `val2` are the prior contents of
the out-parameters. -/
def adxl372_raw (indio_dev : iio_dev) (map : regmap) (chan : iio_chan_spec)
    (val val2 : Int) (info : iio_chan_info) : RawRes :=
  match info with
  | .IIO_CHAN_INFO_RAW =>
    if indio_dev.buffer_enabled then ⟨-EBUSY, val, val2, map⟩
    else
      let (ret, map) := adxl372_read_axis map chan.address
      if ret < 0 then ⟨ret, val, val2, map⟩
      else ⟨IIO_VAL_INT, sign_extend32 (ret.toNat >>> chan.shift) (chan.realbits - 1), val2, map⟩
  | .IIO_CHAN_INFO_SCALE => ⟨IIO_VAL_INT_PLUS_MICRO, 0, ADXL372_USCALE, map⟩
  | .other => ⟨-EINVAL, val, val2, map⟩

/-! ## Buffered acquisition -/

/-- The function `adxl372_set_watermark`; `val` is an `unsigned int`. -/
def adxl372_set_watermark (st : adxl372_state) (val : Nat) : Int × adxl372_state :=
  let val := val % 4294967296
  let val := if val > ADXL372_FIFO_SIZE then ADXL372_FIFO_SIZE else val
  (0, { st with watermark := val % 65536 })

/-- Modelled from the spec: `for_each_set_bit` is outside src/; it runs the
body for each set bit of the mask below `size`, in increasing order.  The
body here is `accel_axis_en |= bit; fifo_set_size++;` on two `u8`
variables, the pair `(accel_axis_en, fifo_set_size)`. -/
def scan_axes (mask size : Nat) : Nat × Nat :=
  (List.range size).foldl
    (fun acc bit => if mask.testBit bit then ((acc.1 ||| bit) % 256, (acc.2 + 1) % 256) else acc)
    (0, 0)

/-- The switch of `adxl372_buffer_postenable` on `accel_axis_en`; no case
matches above 3 and the format is left as it was. -/
def select_format (old : adxl372_fifo_format) (accel_axis_en fifo_set_size : Nat) :
    adxl372_fifo_format :=
  match accel_axis_en with
  | 0 => ADXL372_X_FIFO
  | 1 => if fifo_set_size = 1 then ADXL372_Y_FIFO else ADXL372_XY_FIFO
  | 2 => if fifo_set_size = 1 then ADXL372_Z_FIFO else ADXL372_XZ_FIFO
  | 3 => if fifo_set_size = 3 then ADXL372_XYZ_PEAK_FIFO else ADXL372_YZ_FIFO
  | _ => old

/-- The middle of `adxl372_buffer_postenable`, from the switch to the two
stores before `adxl372_configure_fifo`: select the format, clamp the
watermark to the 512 slots of the FIFO, store `fifo_set_size` and set
`fifo_mode` to streamed. -/
def postenable_select (st : adxl372_state) (accel_axis_en fifo_set_size : Nat) :
    adxl372_state :=
  let st := { st with
    fifo_format := (select_format st.fifo_format accel_axis_en fifo_set_size) }
  let st := if st.watermark * fifo_set_size > ADXL372_FIFO_SIZE
    then { st with watermark := (ADXL372_FIFO_SIZE / fifo_set_size) % 65536 } else st
  { st with fifo_set_size := fifo_set_size, fifo_mode := ADXL372_FIFO_STREAMED }

/-- The function `adxl372_buffer_postenable`. -/
def adxl372_buffer_postenable (indio_dev : iio_dev) (st : adxl372_state) (map : regmap) : Res :=
  if st.watermark = 0 then ⟨-EINVAL, st, map⟩
  else
    let r := adxl372_set_interrupts st map ADXL372_INT1_MAP_FIFO_FULL_MSK 0
    if r.ret < 0 then r
    else
      let (accel_axis_en, fifo_set_size) :=
        scan_axes indio_dev.active_scan_mask indio_dev.masklength
      let c := adxl372_configure_fifo (postenable_select r.st accel_axis_en fifo_set_size) r.map
      if c.ret < 0 then
        let i := adxl372_set_interrupts { c.st with fifo_mode := ADXL372_FIFO_BYPASSED }
          c.map 0 0
        ⟨c.ret, i.st, i.map⟩
      else c

/-- The function `adxl372_buffer_predisable`. -/
def adxl372_buffer_predisable (st : adxl372_state) (map : regmap) : Res :=
  let i := adxl372_set_interrupts st map 0 0
  let c := adxl372_configure_fifo { i.st with fifo_mode := ADXL372_FIFO_BYPASSED } i.map
  ⟨0, c.st, c.map⟩


/-! ## Auxiliary definitions for the statements -/

/-- The FIFO fields of the state: mode, format, set size and watermark. -/
def fifo_fields (st : adxl372_state) :
    adxl372_fifo_mode × adxl372_fifo_format × Nat × Nat :=
  (st.fifo_mode, st.fifo_format, st.fifo_set_size, st.watermark)

/-- A register map that answers every transfer alike, with an empty log. -/
def regmap.const (ret : Int) (bytes : List Nat) : regmap :=
  ⟨fun _ _ => ⟨ret, bytes⟩, []⟩

/-- A register map that answers the transfers in order from a script, and
fails with `-EIO` once the script is exhausted; the log is empty. -/
def regmap.script (replies : List Reply) : regmap :=
  ⟨fun log _ => replies.getD log.length ⟨-5, []⟩, []⟩


/-- A run that extends the log `before` to `log` and returns `ret` stops at
its first failure: a transfer of the run that failed is the last transfer of
the run, and its code is the code returned. -/
def fail_stop (before : List Xfer) (ret : Int) (log : List Xfer) : Prop :=
  ∃ ext, log = before ++ ext ∧
    ∀ pre x post, ext = pre ++ x :: post → x.ret < 0 → post = [] ∧ ret = x.ret

/-- The invariant behind `fail_stop`, closed under sequencing: either the run
succeeded and so did each of its transfers, or its last transfer failed, is
the only one that did, and gave the code returned. -/
def stops (before : List Xfer) (ret : Int) (log : List Xfer) : Prop :=
  ∃ ext, log = before ++ ext ∧
    ((¬ ret < 0 ∧ ∀ x ∈ ext, ¬ x.ret < 0) ∨
     (∃ pre x, ext = pre ++ [x] ∧ (∀ y ∈ pre, ¬ y.ret < 0) ∧ x.ret < 0 ∧ ret = x.ret))

/-- The size in bytes of the transfer buffer `st->data.d8` (`u8 d8[1024]`). -/
def d8_size : Nat := 1024

/-! # Theorems -/

/-! ## Frame lemmas -/

theorem set_op_mode_fifo_fields (st : adxl372_state) (map : regmap) (m : adxl372_op_mode) :
    fifo_fields (adxl372_set_op_mode st map m).st = fifo_fields st := by
  unfold adxl372_set_op_mode
  simp only []
  split <;> rfl

theorem configure_fifo_fifo_fields (st : adxl372_state) (map : regmap) :
    fifo_fields (adxl372_configure_fifo st map).st = fifo_fields st := by
  unfold adxl372_configure_fifo
  simp only []
  split
  · exact set_op_mode_fifo_fields _ _ _
  · split
    · exact set_op_mode_fifo_fields _ _ _
    · rw [set_op_mode_fifo_fields, set_op_mode_fifo_fields]

theorem set_interrupts_fifo_fields (st : adxl372_state) (map : regmap) (a b : Nat) :
    fifo_fields (adxl372_set_interrupts st map a b).st = fifo_fields st := by
  unfold adxl372_set_interrupts
  simp only []
  split <;> rfl

theorem scan_axes_ge (mask n : Nat) (hm : mask < 8) (hn : 3 ≤ n) :
    scan_axes mask n = scan_axes mask 3 := by
  induction n with
  | zero => omega
  | succ k ih =>
    rcases Nat.lt_or_ge k 3 with h | h
    · have : k = 2 := by omega
      subst this; rfl
    · have hk : mask.testBit k = false := by
        apply Nat.testBit_lt_two_pow
        calc mask < 2 ^ 3 := hm
          _ ≤ 2 ^ k := Nat.pow_le_pow_right (by decide) h
      have := ih h
      unfold scan_axes at this ⊢
      rw [List.range_succ, List.foldl_append, this]
      simp [hk]

theorem postenable_fifo_fields (indio_dev : iio_dev) (st : adxl372_state) (map : regmap)
    (hw : st.watermark ≠ 0)
    (hirq : ¬ (adxl372_set_interrupts st map ADXL372_INT1_MAP_FIFO_FULL_MSK 0).ret < 0) :
    (adxl372_buffer_postenable indio_dev st map).st.fifo_format
        = select_format st.fifo_format
            (scan_axes indio_dev.active_scan_mask indio_dev.masklength).1
            (scan_axes indio_dev.active_scan_mask indio_dev.masklength).2
      ∧ (adxl372_buffer_postenable indio_dev st map).st.fifo_set_size
        = (scan_axes indio_dev.active_scan_mask indio_dev.masklength).2
      ∧ (adxl372_buffer_postenable indio_dev st map).st.watermark
        = (if st.watermark * (scan_axes indio_dev.active_scan_mask indio_dev.masklength).2
              > ADXL372_FIFO_SIZE
           then (ADXL372_FIFO_SIZE
              / (scan_axes indio_dev.active_scan_mask indio_dev.masklength).2) % 65536
           else st.watermark) := by
  have hi := set_interrupts_fifo_fields st map ADXL372_INT1_MAP_FIFO_FULL_MSK 0
  unfold adxl372_buffer_postenable
  simp only [hw, hirq, if_false]
  generalize adxl372_set_interrupts st map ADXL372_INT1_MAP_FIFO_FULL_MSK 0 = r at hi ⊢
  generalize scan_axes indio_dev.active_scan_mask indio_dev.masklength = ax
  obtain ⟨en, sz⟩ := ax
  have hc := configure_fifo_fifo_fields (postenable_select r.st en sz) r.map
  generalize adxl372_configure_fifo (postenable_select r.st en sz) r.map = c at hc ⊢
  have hp : fifo_fields (postenable_select r.st en sz)
      = (ADXL372_FIFO_STREAMED, select_format st.fifo_format en sz, sz,
          if st.watermark * sz > ADXL372_FIFO_SIZE then (ADXL372_FIFO_SIZE / sz) % 65536
          else st.watermark) := by
    simp only [fifo_fields, Prod.mk.injEq] at hi
    obtain ⟨h1, h2, h3, h4⟩ := hi
    unfold postenable_select
    simp only [h2, h4]
    split <;> simp [fifo_fields, *]
  rw [hp] at hc
  simp only []
  split
  · have hs := set_interrupts_fifo_fields { c.st with fifo_mode := ADXL372_FIFO_BYPASSED } c.map 0 0
    generalize adxl372_set_interrupts { c.st with fifo_mode := ADXL372_FIFO_BYPASSED } c.map 0 0
      = i at hs ⊢
    simp only [fifo_fields, Prod.mk.injEq] at hc hs
    obtain ⟨_, h2, h3, h4⟩ := hs
    obtain ⟨_, c2, c3, c4⟩ := hc
    simp only [h2, h3, h4, c2, c3, c4, and_self]
  · simp only [fifo_fields, Prod.mk.injEq] at hc
    obtain ⟨_, c2, c3, c4⟩ := hc
    simp only [c2, c3, c4, and_self]

/-! ## C1: the format table -/

/-- C1 (as stated, refuted): with no axis selected, a non-zero watermark and
an interrupt-map write that succeeds, `adxl372_buffer_postenable` leaves
`fifo_set_size = 0`, not the pair (1, X) of the table. -/
theorem postenable_no_axis_counterexample :
    ({ adxl372_state.zero with watermark := 1 } : adxl372_state).watermark ≠ 0
    ∧ ¬ (adxl372_set_interrupts { adxl372_state.zero with watermark := 1 }
          (regmap.const 0 []) ADXL372_INT1_MAP_FIFO_FULL_MSK 0).ret < 0
    ∧ (adxl372_buffer_postenable ⟨false, 0, 4⟩ { adxl372_state.zero with watermark := 1 }
          (regmap.const 0 [])).st.fifo_set_size = 0
    ∧ ((adxl372_buffer_postenable ⟨false, 0, 4⟩ { adxl372_state.zero with watermark := 1 }
          (regmap.const 0 [])).st.fifo_set_size,
       (adxl372_buffer_postenable ⟨false, 0, 4⟩ { adxl372_state.zero with watermark := 1 }
          (regmap.const 0 [])).st.fifo_format) ≠ (1, ADXL372_X_FIFO) := by
  decide

/-- C1 (amended): for every scan mask over the axes X, Y, Z (bits 0, 1, 2),
`adxl372_buffer_postenable`, called with a non-zero watermark and a
succeeding interrupt-map write, sets (fifo_set_size, fifo_format) to:
none selected -> (0, X); X only -> (1, X); Y only -> (1, Y); X,Y -> (2, XY);
Z only -> (1, Z); X,Z -> (2, XZ); Y,Z -> (2, YZ); X,Y,Z -> (3, XYZ-peak). -/
theorem postenable_format_table (indio_dev : iio_dev) (st : adxl372_state) (map : regmap)
    (hw : st.watermark ≠ 0)
    (hirq : ¬ (adxl372_set_interrupts st map ADXL372_INT1_MAP_FIFO_FULL_MSK 0).ret < 0)
    (hlen : 3 ≤ indio_dev.masklength) :
    (indio_dev.active_scan_mask = 0 →
      (adxl372_buffer_postenable indio_dev st map).st.fifo_set_size = 0 ∧
      (adxl372_buffer_postenable indio_dev st map).st.fifo_format = ADXL372_X_FIFO) ∧
    (indio_dev.active_scan_mask = 1 →
      (adxl372_buffer_postenable indio_dev st map).st.fifo_set_size = 1 ∧
      (adxl372_buffer_postenable indio_dev st map).st.fifo_format = ADXL372_X_FIFO) ∧
    (indio_dev.active_scan_mask = 2 →
      (adxl372_buffer_postenable indio_dev st map).st.fifo_set_size = 1 ∧
      (adxl372_buffer_postenable indio_dev st map).st.fifo_format = ADXL372_Y_FIFO) ∧
    (indio_dev.active_scan_mask = 3 →
      (adxl372_buffer_postenable indio_dev st map).st.fifo_set_size = 2 ∧
      (adxl372_buffer_postenable indio_dev st map).st.fifo_format = ADXL372_XY_FIFO) ∧
    (indio_dev.active_scan_mask = 4 →
      (adxl372_buffer_postenable indio_dev st map).st.fifo_set_size = 1 ∧
      (adxl372_buffer_postenable indio_dev st map).st.fifo_format = ADXL372_Z_FIFO) ∧
    (indio_dev.active_scan_mask = 5 →
      (adxl372_buffer_postenable indio_dev st map).st.fifo_set_size = 2 ∧
      (adxl372_buffer_postenable indio_dev st map).st.fifo_format = ADXL372_XZ_FIFO) ∧
    (indio_dev.active_scan_mask = 6 →
      (adxl372_buffer_postenable indio_dev st map).st.fifo_set_size = 2 ∧
      (adxl372_buffer_postenable indio_dev st map).st.fifo_format = ADXL372_YZ_FIFO) ∧
    (indio_dev.active_scan_mask = 7 →
      (adxl372_buffer_postenable indio_dev st map).st.fifo_set_size = 3 ∧
      (adxl372_buffer_postenable indio_dev st map).st.fifo_format = ADXL372_XYZ_PEAK_FIFO) := by
  obtain ⟨hf, hs, _⟩ := postenable_fifo_fields indio_dev st map hw hirq
  rw [hf, hs]
  refine ⟨?_, ?_, ?_, ?_, ?_, ?_, ?_, ?_⟩ <;> intro hm <;>
    rw [hm, scan_axes_ge _ _ (by decide) hlen] <;> exact ⟨rfl, rfl⟩

theorem postenable_format_table_witness :
    ({ adxl372_state.zero with watermark := 300 } : adxl372_state).watermark ≠ 0
    ∧ ¬ (adxl372_set_interrupts { adxl372_state.zero with watermark := 300 }
          (regmap.const 0 []) ADXL372_INT1_MAP_FIFO_FULL_MSK 0).ret < 0
    ∧ 3 ≤ (⟨false, 5, 4⟩ : iio_dev).masklength
    ∧ (adxl372_buffer_postenable ⟨false, 5, 4⟩ { adxl372_state.zero with watermark := 300 }
          (regmap.const 0 [])).st.fifo_set_size = 2
    ∧ (adxl372_buffer_postenable ⟨false, 5, 4⟩ { adxl372_state.zero with watermark := 300 }
          (regmap.const 0 [])).st.fifo_format = ADXL372_XZ_FIFO :=
  ⟨by decide, by decide, by decide,
    (postenable_format_table ⟨false, 5, 4⟩ { adxl372_state.zero with watermark := 300 }
      (regmap.const 0 []) (by decide) (by decide) (by decide)).2.2.2.2.2.1 rfl⟩


/-! ## C3: the watermark clamp -/

theorem set_watermark_value (st : adxl372_state) (r : Nat) (hr : r < 4294967296) :
    (adxl372_set_watermark st r).2.watermark = min r 512 := by
  unfold adxl372_set_watermark ADXL372_FIFO_SIZE
  simp only []
  split <;> omega

theorem scan_axes_size (mask n : Nat) (h1 : 1 ≤ mask) (hm : mask < 8) (hn : 3 ≤ n) :
    (scan_axes mask n).2 = 1 ∨ (scan_axes mask n).2 = 2 ∨ (scan_axes mask n).2 = 3 := by
  rw [scan_axes_ge mask n hm hn]
  interval_cases mask <;> decide

/-- C3: for every watermark request r >= 1 (an unsigned 32-bit value) and
every non-empty axis selection, `adxl372_set_watermark r` followed by
`adxl372_buffer_postenable` (interrupt-map write succeeding) leaves
fifo_set_size s in {1, 2, 3} and watermark = min(r, 512 / s), hence
watermark * fifo_set_size <= 512; r = 1000 with s = 3 gives 170, and r = 300
with axes {X, Z} gives fifo_set_size 2, format XZ and watermark 256. -/
theorem set_watermark_postenable_clamp (indio_dev : iio_dev) (st : adxl372_state)
    (map : regmap) (r : Nat)
    (hr1 : 1 ≤ r) (hr32 : r < 4294967296)
    (hne : 1 ≤ indio_dev.active_scan_mask) (hmask : indio_dev.active_scan_mask < 8)
    (hlen : 3 ≤ indio_dev.masklength)
    (hirq : ¬ (adxl372_set_interrupts (adxl372_set_watermark st r).2 map
                ADXL372_INT1_MAP_FIFO_FULL_MSK 0).ret < 0) :
    ((adxl372_buffer_postenable indio_dev (adxl372_set_watermark st r).2 map).st.fifo_set_size = 1
      ∨ (adxl372_buffer_postenable indio_dev (adxl372_set_watermark st r).2 map).st.fifo_set_size
          = 2
      ∨ (adxl372_buffer_postenable indio_dev (adxl372_set_watermark st r).2 map).st.fifo_set_size
          = 3)
    ∧ (adxl372_buffer_postenable indio_dev (adxl372_set_watermark st r).2 map).st.watermark
        = min r (512 /
            (adxl372_buffer_postenable indio_dev (adxl372_set_watermark st r).2
              map).st.fifo_set_size)
    ∧ (adxl372_buffer_postenable indio_dev (adxl372_set_watermark st r).2 map).st.watermark
        * (adxl372_buffer_postenable indio_dev (adxl372_set_watermark st r).2
              map).st.fifo_set_size ≤ 512
    ∧ (r = 1000 →
        (adxl372_buffer_postenable indio_dev (adxl372_set_watermark st r).2 map).st.fifo_set_size
          = 3 →
        (adxl372_buffer_postenable indio_dev (adxl372_set_watermark st r).2 map).st.watermark
          = 170)
    ∧ (r = 300 → indio_dev.active_scan_mask = 5 →
        (adxl372_buffer_postenable indio_dev (adxl372_set_watermark st r).2 map).st.fifo_set_size
          = 2
        ∧ (adxl372_buffer_postenable indio_dev (adxl372_set_watermark st r).2 map).st.fifo_format
          = ADXL372_XZ_FIFO
        ∧ (adxl372_buffer_postenable indio_dev (adxl372_set_watermark st r).2 map).st.watermark
          = 256) := by
  have hwm := set_watermark_value st r hr32
  have hw : (adxl372_set_watermark st r).2.watermark ≠ 0 := by omega
  obtain ⟨hf, hs, hv⟩ := postenable_fifo_fields indio_dev _ map hw hirq
  have hsz := scan_axes_size _ _ hne hmask hlen
  have hXZ : indio_dev.active_scan_mask = 5 →
      scan_axes indio_dev.active_scan_mask indio_dev.masklength = (2, 2) := by
    intro h5
    rw [h5, scan_axes_ge _ _ (by decide) hlen]
    rfl
  rw [hf, hs, hv, hwm]
  generalize (scan_axes indio_dev.active_scan_mask indio_dev.masklength) = ax at hsz hXZ ⊢
  unfold ADXL372_FIFO_SIZE
  refine ⟨hsz, ?_, ?_, ?_, ?_⟩
  · rcases hsz with h | h | h <;> rw [h] <;> split <;> omega
  · rcases hsz with h | h | h <;> rw [h] <;> split <;> omega
  · intro h1000 h3
    rw [h3]
    split <;> omega
  · intro h300 h5
    rw [hXZ h5]
    refine ⟨rfl, rfl, ?_⟩
    simp only []
    split <;> omega

theorem set_watermark_postenable_clamp_witness :
    1 ≤ 1000 ∧ 1000 < 4294967296
    ∧ 1 ≤ (⟨false, 7, 4⟩ : iio_dev).active_scan_mask
    ∧ (⟨false, 7, 4⟩ : iio_dev).active_scan_mask < 8
    ∧ 3 ≤ (⟨false, 7, 4⟩ : iio_dev).masklength
    ∧ ¬ (adxl372_set_interrupts (adxl372_set_watermark adxl372_state.zero 1000).2
          (regmap.const 0 []) ADXL372_INT1_MAP_FIFO_FULL_MSK 0).ret < 0
    ∧ (adxl372_buffer_postenable ⟨false, 7, 4⟩ (adxl372_set_watermark adxl372_state.zero 1000).2
          (regmap.const 0 [])).st.watermark
        = min 1000 (512 / (adxl372_buffer_postenable ⟨false, 7, 4⟩
            (adxl372_set_watermark adxl372_state.zero 1000).2
            (regmap.const 0 [])).st.fifo_set_size) :=
  ⟨by decide, by decide, by decide, by decide, by decide, by decide,
    (set_watermark_postenable_clamp ⟨false, 7, 4⟩ adxl372_state.zero (regmap.const 0 []) 1000
      (by decide) (by decide) (by decide) (by decide) (by decide) (by decide)).2.1⟩

/-! ## C4: status decoding -/

theorem shiftRight_and_one (x k : Nat) : (x >>> k) &&& 1 = (x.testBit k).toNat := by
  rw [Nat.testBit_to_div_mod, Nat.shiftRight_eq_div_pow, Nat.and_one_is_mod]
  rcases Nat.mod_two_eq_zero_or_one (x / 2 ^ k) with h | h <;> simp [h]

theorem fifo_count_eq (b2 b3 : Nat) (h3 : b3 < 256) :
    ((b2 &&& 0x3) <<< 8) ||| b3 = (b2 % 4) * 256 + b3 := by
  have h : b2 &&& 0x3 = b2 % 4 := Nat.and_pow_two_sub_one_eq_mod b2 2
  rw [h, Nat.shiftLeft_eq, Nat.mul_comm]
  exact (Nat.mul_add_lt_is_or (i := 8) h3 (b2 % 4)).symm

/-- C4: for every 4-byte status block [b0, b1, b2, b3] returned by a
successful bulk read, `adxl372_get_status` yields status1 = b0, status2 = b1
and fifo_entries = ((b2 & 0x3) << 8) | b3 = (b2 mod 4) * 256 + b3, a value
below 1024 that depends on b2 only through its two low bits; the status1
flag extractors return bit 0 (data-ready), bit 1 (fifo-ready), bit 2
(fifo-full), bit 3 (fifo-overrun), bit 5 (nvm-busy), bit 6 (awake) and bit 7
(user-register-error) of b0. -/
theorem get_status_decode (map : regmap) (b0 b1 b2 b3 s1 s2 fe : Nat)
    (h0 : b0 < 256) (h1 : b1 < 256) (h2 : b2 < 256) (h3 : b3 < 256)
    (hok : ¬ (map.respond map.log
        (Txn.bulk_read (ADXL372_REG_READ ADXL372_STATUS_1) 4)).ret < 0)
    (hbytes : (map.respond map.log
        (Txn.bulk_read (ADXL372_REG_READ ADXL372_STATUS_1) 4)).bytes = [b0, b1, b2, b3]) :
    (adxl372_get_status map s1 s2 fe).status1 = b0
    ∧ (adxl372_get_status map s1 s2 fe).status2 = b1
    ∧ (adxl372_get_status map s1 s2 fe).fifo_entries = ((b2 &&& 0x3) <<< 8) ||| b3
    ∧ (adxl372_get_status map s1 s2 fe).fifo_entries = (b2 % 4) * 256 + b3
    ∧ (adxl372_get_status map s1 s2 fe).fifo_entries < 1024
    ∧ ADXL372_STATUS_1_DATA_RDY (adxl372_get_status map s1 s2 fe).status1
        = (b0.testBit 0).toNat
    ∧ ADXL372_STATUS_1_FIFO_RDY (adxl372_get_status map s1 s2 fe).status1
        = (b0.testBit 1).toNat
    ∧ ADXL372_STATUS_1_FIFO_FULL (adxl372_get_status map s1 s2 fe).status1
        = (b0.testBit 2).toNat
    ∧ ADXL372_STATUS_1_FIFO_OVR (adxl372_get_status map s1 s2 fe).status1
        = (b0.testBit 3).toNat
    ∧ ADXL372_STATUS_1_USR_NVM_BUSY (adxl372_get_status map s1 s2 fe).status1
        = (b0.testBit 5).toNat
    ∧ ADXL372_STATUS_1_AWAKE (adxl372_get_status map s1 s2 fe).status1
        = (b0.testBit 6).toNat
    ∧ ADXL372_STATUS_1_ERR_USR_REGS (adxl372_get_status map s1 s2 fe).status1
        = (b0.testBit 7).toNat := by
  have hs : adxl372_get_status map s1 s2 fe
      = ⟨(map.respond map.log (Txn.bulk_read (ADXL372_REG_READ ADXL372_STATUS_1) 4)).ret,
          b0, b1, (((b2 &&& 0x3) <<< 8) ||| b3) % 65536,
          (map.issue (Txn.bulk_read (ADXL372_REG_READ ADXL372_STATUS_1) 4)).2⟩ := by
    unfold adxl372_get_status regmap_bulk_read
    simp only [regmap.issue, hok, if_false, hbytes, List.getD_cons_zero, List.getD_cons_succ,
      Nat.mod_eq_of_lt h0, Nat.mod_eq_of_lt h1, Nat.mod_eq_of_lt h2, Nat.mod_eq_of_lt h3]
  have hc := fifo_count_eq b2 b3 h3
  have hm : (((b2 &&& 0x3) <<< 8) ||| b3) % 65536 = ((b2 &&& 0x3) <<< 8) ||| b3 := by
    rw [hc]; omega
  rw [hs]
  refine ⟨rfl, rfl, hm, hm.trans hc, ?_, ?_, ?_, ?_, ?_, ?_, ?_, ?_⟩
  · show (((b2 &&& 0x3) <<< 8) ||| b3) % 65536 < 1024
    rw [hm, hc]; omega
  all_goals exact shiftRight_and_one _ _

theorem get_status_decode_witness :
    (adxl372_get_status (regmap.const 0 [0x05, 0x00, 0x02, 0x10]) 0 0 0).status1 = 0x05
    ∧ ADXL372_STATUS_1_DATA_RDY 0x05 = 1
    ∧ ADXL372_STATUS_1_FIFO_RDY 0x05 = 0
    ∧ ADXL372_STATUS_1_FIFO_FULL 0x05 = 1
    ∧ (adxl372_get_status (regmap.const 0 [0x00, 0x00, 0x01, 0x0A]) 0 0 0).fifo_entries = 266 :=
  ⟨(get_status_decode (regmap.const 0 [0x05, 0x00, 0x02, 0x10]) 0x05 0x00 0x02 0x10 0 0 0
      (by decide) (by decide) (by decide) (by decide) (by decide) rfl).1,
   by decide, by decide, by decide,
   (get_status_decode (regmap.const 0 [0x00, 0x00, 0x01, 0x0A]) 0x00 0x00 0x01 0x0A 0 0 0
      (by decide) (by decide) (by decide) (by decide) (by decide) rfl).2.2.2.1⟩

/-! ## C2: the drain margin -/

/-- When the set size does not exceed the reported count the `u16`
subtraction is the mathematical one. -/
theorem fifo_entries_sub_of_le (count size : Nat) (hc : count < 65536) (hle : size ≤ count) :
    fifo_entries_sub count size = count - size := by
  unfold fifo_entries_sub
  omega

/-- When the reported count is below the set size the `u16` subtraction wraps
around. -/
theorem fifo_entries_sub_of_lt (count size : Nat) (hs : size ≤ 65536) (hlt : count < size) :
    fifo_entries_sub count size = count + 65536 - size := by
  unfold fifo_entries_sub
  omega

/-- The transfers of `adxl372_trigger_handler` when a drain is due: after the
status read, one bulk read of `2 * fifo_entries_sub count fifo_set_size`
bytes from the FIFO data register, whatever the fuel of the push loop. -/
theorem trigger_handler_drain_request (fuel : Nat) (st : adxl372_state) (map : regmap)
    (out : regmap × List Event)
    (hmode : st.fifo_mode ≠ ADXL372_FIFO_BYPASSED)
    (hok : ¬ (adxl372_get_status map 0 0 0).ret < 0)
    (hfull : ADXL372_STATUS_1_FIFO_FULL (adxl372_get_status map 0 0 0).status1 ≠ 0)
    (hout : adxl372_trigger_handler fuel st map = some out) :
    ∃ ret, out.1.log = (adxl372_get_status map 0 0 0).map.log ++
      [⟨Txn.bulk_read (ADXL372_REG_READ ADXL372_FIFO_DATA)
          (fifo_entries_sub (adxl372_get_status map 0 0 0).fifo_entries st.fifo_set_size * 2),
        ret⟩] := by
  unfold adxl372_trigger_handler at hout
  simp only [hok, if_false, hmode, hfull, ne_eq, not_false_eq_true, and_self, if_true,
    adxl372_read_fifo, regmap_bulk_read, regmap.issue] at hout
  split at hout
  · cases hout
    exact ⟨_, rfl⟩
  · cases hp : push_loop fuel 0
        (fifo_entries_sub (adxl372_get_status map 0 0 0).fifo_entries st.fifo_set_size * 2)
        (st.fifo_set_size * 2) with
    | none => rw [hp] at hout; cases hout
    | some evs =>
      rw [hp] at hout
      cases hout
      exact ⟨_, rfl⟩

/-- C2 (code bug, evaluated): in streamed mode with `fifo_set_size = 3`, the
status block [0x04, 0x00, 0x00, 0x02] (fifo-full set, 2 entries reported)
makes `fifo_entries -= fifo_set_size` wrap to 65535, and the handler asks the
FIFO data register for 131070 bytes, more than the 2 slots reported, instead
of leaving a sample set unread. -/
theorem trigger_handler_drain_underflow :
    (adxl372_get_status (regmap.script [⟨0, [0x04, 0x00, 0x00, 0x02]⟩, ⟨-5, []⟩]) 0 0 0).fifo_entries
      = 2
    ∧ ADXL372_STATUS_1_FIFO_FULL
        (adxl372_get_status (regmap.script [⟨0, [0x04, 0x00, 0x00, 0x02]⟩, ⟨-5, []⟩]) 0 0 0).status1
      = 1
    ∧ fifo_entries_sub 2 3 = 65535
    ∧ (adxl372_trigger_handler 0
        { adxl372_state.zero with fifo_mode := ADXL372_FIFO_STREAMED, fifo_set_size := 3 }
        (regmap.script [⟨0, [0x04, 0x00, 0x00, 0x02]⟩, ⟨-5, []⟩])).map (fun out => out.1.log)
      = some [⟨Txn.bulk_read (ADXL372_REG_READ ADXL372_STATUS_1) 4, 0⟩,
              ⟨Txn.bulk_read (ADXL372_REG_READ ADXL372_FIFO_DATA) 131070, -5⟩] := by
  decide

/-! ## C5: the threshold bytes -/

theorem th_reg_high_val_eq (t : Nat) (ht : t < 4294967296) :
    th_reg_high_val t = (t / 100 / 8) % 256 := by
  unfold th_reg_high_val
  rw [Nat.mod_eq_of_lt ht, Nat.shiftRight_eq_div_pow]

theorem th_reg_low_val_eq (ref : adxl372_threshold_ref_en) (enable : adxl372_threshold_en)
    (t : Nat) (ht : t < 4294967296) :
    th_reg_low_val ref enable t
      = ((t / 100) % 8) * 32 + (ref.toNat * 2 + enable.toNat) := by
  unfold th_reg_low_val
  rw [Nat.mod_eq_of_lt ht, Nat.shiftLeft_eq]
  have hcode : t / 100 * 2 ^ 5 % 4294967296 = t / 100 * 2 ^ 5 := by omega
  have hflags : (ref.toNat <<< 1) ||| enable.toNat = ref.toNat * 2 + enable.toNat := by
    cases ref <;> cases enable <;> rfl
  have hlt : ref.toNat * 2 + enable.toNat < 2 ^ 5 := by
    cases ref <;> cases enable <;> decide
  rw [hcode, Nat.lor_assoc, hflags, Nat.mul_comm (t / 100) (2 ^ 5),
    ← Nat.mul_add_lt_is_or hlt]
  omega

/-- C5 (as stated, refuted): threshold_mg = 204800 has code 2048, which fits
12 bits, yet the two bytes written are high = 0 and low = 3 and decode to 0,
not to 204800. -/
theorem activity_threshold_counterexample :
    204800 < 409600
    ∧ (adxl372_set_activity_threshold adxl372_state.zero (regmap.const 0 [])
        ADXL372_ACTIVITY ADXL372_THRESHOLD_REF_EN ADXL372_THRESHOLD_EN 204800).map.log
      = [⟨Txn.bulk_write (ADXL372_REG_WRITE ADXL372_X_THRESH_ACT_H) [0, 3, 0, 3, 0, 3], 0⟩]
    ∧ ((th_reg_high_val 204800 <<< 3)
        ||| (th_reg_low_val ADXL372_THRESHOLD_REF_EN ADXL372_THRESHOLD_EN 204800 >>> 5)) * 100
      ≠ 204800 - 204800 % 100 := by
  decide

/-- C5 (amended): for every threshold_mg whose code threshold_mg / 100 fits
the 11 bits that the two bytes hold (threshold_mg < 204800) and every
reference-enable / threshold-enable flag pair, `adxl372_set_activity_threshold`
issues one bulk write of the pair (high, low) three times over, and the pair
decodes back to its inputs: ((high << 3) | (low >> 5)) * 100 =
threshold_mg - (threshold_mg mod 100), and low & 0x3 =
(reference_enabled << 1) | threshold_enabled. -/
theorem activity_threshold_roundtrip (st : adxl372_state) (map : regmap)
    (act : adxl372_th_activity) (ref : adxl372_threshold_ref_en)
    (enable : adxl372_threshold_en) (threshold_mg : Nat) (ht : threshold_mg < 204800) :
    (adxl372_set_activity_threshold st map act ref enable threshold_mg).map.log
      = map.log ++
        [⟨Txn.bulk_write (ADXL372_REG_WRITE (th_reg_high_addr act))
            [th_reg_high_val threshold_mg, th_reg_low_val ref enable threshold_mg,
             th_reg_high_val threshold_mg, th_reg_low_val ref enable threshold_mg,
             th_reg_high_val threshold_mg, th_reg_low_val ref enable threshold_mg],
          (adxl372_set_activity_threshold st map act ref enable threshold_mg).ret⟩]
    ∧ ((th_reg_high_val threshold_mg <<< 3)
        ||| (th_reg_low_val ref enable threshold_mg >>> 5)) * 100
      = threshold_mg - threshold_mg % 100
    ∧ th_reg_low_val ref enable threshold_mg &&& 0x3
      = (ref.toNat <<< 1) ||| enable.toNat := by
  have h32 : threshold_mg < 4294967296 := by omega
  have hhi := th_reg_high_val_eq threshold_mg h32
  have hlo := th_reg_low_val_eq ref enable threshold_mg h32
  have hflags : (ref.toNat <<< 1) ||| enable.toNat = ref.toNat * 2 + enable.toNat := by
    cases ref <;> cases enable <;> rfl
  have hf4 : ref.toNat * 2 + enable.toNat < 4 := by
    cases ref <;> cases enable <;> decide
  refine ⟨rfl, ?_, ?_⟩
  · have hlow : th_reg_low_val ref enable threshold_mg >>> 5 = (threshold_mg / 100) % 8 := by
      rw [hlo, Nat.shiftRight_eq_div_pow]
      omega
    have hl8 : (threshold_mg / 100) % 8 < 2 ^ 3 := by omega
    rw [hlow, Nat.shiftLeft_eq, Nat.mul_comm _ (2 ^ 3), ← Nat.mul_add_lt_is_or hl8, hhi]
    omega
  · have h3 : th_reg_low_val ref enable threshold_mg &&& 0x3
        = th_reg_low_val ref enable threshold_mg % 4 :=
      Nat.and_pow_two_sub_one_eq_mod _ 2
    rw [h3, hflags, hlo]
    omega

theorem activity_threshold_roundtrip_witness :
    12700 < 204800
    ∧ ((th_reg_high_val 12700 <<< 3)
        ||| (th_reg_low_val ADXL372_THRESHOLD_REF_EN ADXL372_THRESHOLD_DIS 12700 >>> 5)) * 100
      = 12700 - 12700 % 100
    ∧ th_reg_low_val ADXL372_THRESHOLD_REF_EN ADXL372_THRESHOLD_DIS 12700 &&& 0x3
      = (ADXL372_THRESHOLD_REF_EN.toNat <<< 1) ||| ADXL372_THRESHOLD_DIS.toNat :=
  ⟨by decide,
    (activity_threshold_roundtrip adxl372_state.zero (regmap.const 0 []) ADXL372_INACTIVITY
      ADXL372_THRESHOLD_REF_EN ADXL372_THRESHOLD_DIS 12700 (by decide)).2⟩

/-! ## C6: the masked register update -/

theorem masked_update_eq (c mask data : Nat) (hc : c < 65536) (hd : data < 256) :
    masked_update c mask data = (c &&& (0xFFFFFFFF ^^^ mask)) ||| data := by
  unfold masked_update
  have h1 : c &&& (0xFFFFFFFF ^^^ mask) < 65536 :=
    Nat.lt_of_le_of_lt Nat.and_le_left hc
  have h2 : (c &&& (0xFFFFFFFF ^^^ mask)) ||| data < 65536 :=
    Nat.or_lt_two_pow (n := 16) h1 (by omega)
  rw [Nat.mod_eq_of_lt h1, Nat.mod_eq_of_lt h2]

theorem testBit_ones32 (i : Nat) : (0xFFFFFFFF : Nat).testBit i = decide (i < 32) :=
  Nat.testBit_two_pow_sub_one 32 i

theorem testBit_u16_high (c i : Nat) (hc : c < 65536) (hi : 32 ≤ i) : c.testBit i = false := by
  apply Nat.testBit_lt_two_pow
  calc c < 2 ^ 16 := hc
    _ ≤ 2 ^ i := Nat.pow_le_pow_right (by decide) (by omega)

theorem masked_update_inside (c mask data : Nat) (hc : c < 65536) (hd : data < 256) :
    masked_update c mask data &&& mask = data &&& mask := by
  rw [masked_update_eq c mask data hc hd]
  apply Nat.eq_of_testBit_eq
  intro i
  simp only [Nat.testBit_and, Nat.testBit_or, Nat.testBit_xor, testBit_ones32]
  rcases Nat.lt_or_ge i 32 with h | h
  · simp only [h, decide_True]
    cases c.testBit i <;> cases mask.testBit i <;> cases data.testBit i <;> rfl
  · rw [testBit_u16_high c i hc h]
    cases mask.testBit i <;> cases data.testBit i <;> simp

theorem masked_update_outside (c mask data : Nat) (hc : c < 65536) (hd : data < 256) :
    masked_update c mask data &&& (0xFFFFFFFF ^^^ mask)
      = (c &&& (0xFFFFFFFF ^^^ mask)) ||| (data &&& (0xFFFFFFFF ^^^ mask)) := by
  rw [masked_update_eq c mask data hc hd]
  apply Nat.eq_of_testBit_eq
  intro i
  simp only [Nat.testBit_and, Nat.testBit_or, Nat.testBit_xor, testBit_ones32]
  cases c.testBit i <;> cases mask.testBit i <;> cases data.testBit i <;>
    cases decide (i < 32) <;> rfl

/-- C6 (as stated, refuted): with current value c = 0, mask = 0x01 and
value = 0x02, `adxl372_spi_write_mask` writes back m = 2, and
m & ~mask = 2 differs from c & ~mask = 0: a bit of the value outside the mask
reaches the register. -/
theorem write_mask_counterexample :
    (adxl372_spi_write_mask (regmap.const 0 [0]) ADXL372_POWER_CTL 0x01 0x02).2.log
      = [⟨Txn.read (ADXL372_REG_READ ADXL372_POWER_CTL), 0⟩,
         ⟨Txn.write (ADXL372_REG_WRITE ADXL372_POWER_CTL) 2, 0⟩]
    ∧ masked_update 0 0x01 0x02 = 2
    ∧ masked_update 0 0x01 0x02 &&& (0xFFFFFFFF ^^^ 0x01) ≠ 0 &&& (0xFFFFFFFF ^^^ 0x01) := by
  decide

/-- C6 (amended): for every current register value c that a successful read
delivers, every mask (an `unsigned int`) and every value (a `u8`),
`adxl372_spi_write_mask`
writes back m = (c & ~mask) | value, which satisfies m & mask = value & mask
and m & ~mask = (c & ~mask) | (value & ~mask); so the bits outside the mask
are left untouched whenever the value has no bit outside the mask
(value & ~mask = 0), as at every call site of the driver. -/
theorem write_mask_update (map : regmap) (reg_addr mask data c : Nat)
    (hc : c < 256) (_hmask : mask < 4294967296) (hd : data < 256)
    (hok : ¬ (map.respond map.log (Txn.read (ADXL372_REG_READ reg_addr))).ret < 0)
    (hbytes : (map.respond map.log (Txn.read (ADXL372_REG_READ reg_addr))).bytes = [c]) :
    (∃ r1 r2, (adxl372_spi_write_mask map reg_addr mask data).2.log
        = map.log ++ [⟨Txn.read (ADXL372_REG_READ reg_addr), r1⟩,
            ⟨Txn.write (ADXL372_REG_WRITE reg_addr) (masked_update c mask data), r2⟩])
    ∧ masked_update c mask data = (c &&& (0xFFFFFFFF ^^^ mask)) ||| data
    ∧ masked_update c mask data &&& mask = data &&& mask
    ∧ masked_update c mask data &&& (0xFFFFFFFF ^^^ mask)
        = (c &&& (0xFFFFFFFF ^^^ mask)) ||| (data &&& (0xFFFFFFFF ^^^ mask))
    ∧ (data &&& (0xFFFFFFFF ^^^ mask) = 0 →
        masked_update c mask data &&& (0xFFFFFFFF ^^^ mask)
          = c &&& (0xFFFFFFFF ^^^ mask)) := by
  have hc16 : c < 65536 := by omega
  refine ⟨?_, masked_update_eq c mask data hc16 hd, masked_update_inside c mask data hc16 hd,
    masked_update_outside c mask data hc16 hd, ?_⟩
  · unfold adxl372_spi_write_mask regmap_read regmap_write
    simp only [regmap.issue, hok, if_false, hbytes, List.getD_cons_zero,
      Nat.mod_eq_of_lt hc, Nat.mod_eq_of_lt hc16, List.append_assoc, List.singleton_append]
    exact ⟨_, _, rfl⟩
  · intro h0
    rw [masked_update_outside c mask data hc16 hd, h0, Nat.or_zero]

theorem write_mask_update_witness :
    0xAF < 256 ∧ ADXL372_POWER_CTL_MODE_MSK < 4294967296 ∧ 0x00 < 256
    ∧ masked_update 0xAF ADXL372_POWER_CTL_MODE_MSK 0x00 &&& ADXL372_POWER_CTL_MODE_MSK
        = 0x00 &&& ADXL372_POWER_CTL_MODE_MSK
    ∧ masked_update 0xAF ADXL372_POWER_CTL_MODE_MSK 0x00 = 0xAC :=
  ⟨by decide, by decide, by decide,
    (write_mask_update (regmap.const 0 [0xAF]) ADXL372_POWER_CTL ADXL372_POWER_CTL_MODE_MSK
      0x00 0xAF (by decide) (by decide) (by decide) (by decide) rfl).2.2.1,
    by decide⟩

/-- The values passed to `adxl372_spi_write_mask` by the four setters of the
driver have no bit outside the mask passed with them. -/
theorem call_sites_within_mask (m : adxl372_op_mode) (o : adxl372_odr) (b : adxl372_bandwidth)
    (a : adxl372_act_proc_mode) :
    (ADXL372_POWER_CTL_MODE m.toNat % 256) &&& (0xFFFFFFFF ^^^ ADXL372_POWER_CTL_MODE_MSK) = 0
    ∧ (ADXL372_TIMING_ODR_MODE o.toNat % 256) &&& (0xFFFFFFFF ^^^ ADXL372_TIMING_ODR_MSK) = 0
    ∧ (ADXL372_MEASURE_BANDWIDTH_MODE b.toNat % 256)
        &&& (0xFFFFFFFF ^^^ ADXL372_MEASURE_BANDWIDTH_MSK) = 0
    ∧ (ADXL372_MEASURE_LINKLOOP_MODE a.toNat % 256)
        &&& (0xFFFFFFFF ^^^ ADXL372_MEASURE_LINKLOOP_MSK) = 0 := by
  refine ⟨?_, ?_, ?_, ?_⟩
  · cases m <;> decide
  · cases o <;> decide
  · cases b <;> decide
  · cases a <;> decide

/-! ## C7: identity check of the bring-up -/

/-- C7: for every identity value v != 0xAD returned by a successful read of
the identity register, `adxl372_setup` returns -ENODEV, issues no transfer
after the identity read (so no register write at all), and leaves the device
state unchanged (op_mode, odr, bw, act_proc_mode, the FIFO fields and both
interrupt masks). -/
theorem setup_identity_mismatch (st : adxl372_state) (map : regmap) (v : Nat)
    (hv : v < 256) (hne : v ≠ ADXL372_DEVID_VAL)
    (hok : ¬ (map.respond map.log (Txn.read (ADXL372_REG_READ ADXL372_DEVID))).ret < 0)
    (hbytes : (map.respond map.log (Txn.read (ADXL372_REG_READ ADXL372_DEVID))).bytes = [v]) :
    (adxl372_setup st map).ret = -ENODEV
    ∧ (adxl372_setup st map).map.log
        = map.log ++ [⟨Txn.read (ADXL372_REG_READ ADXL372_DEVID),
            (map.respond map.log (Txn.read (ADXL372_REG_READ ADXL372_DEVID))).ret⟩]
    ∧ (∀ x ∈ (adxl372_setup st map).map.log.drop map.log.length,
        x.txn = Txn.read (ADXL372_REG_READ ADXL372_DEVID))
    ∧ (adxl372_setup st map).st = st := by
  have hv16 : v % 65536 = v := by omega
  have hs : adxl372_setup st map
      = ⟨-ENODEV, st, (map.issue (Txn.read (ADXL372_REG_READ ADXL372_DEVID))).2⟩ := by
    unfold adxl372_setup regmap_read
    simp only [regmap.issue, hok, if_false, hbytes, List.getD_cons_zero,
      Nat.mod_eq_of_lt hv, hv16, ne_eq, hne, not_false_eq_true, if_true]
  rw [hs]
  refine ⟨rfl, rfl, ?_, rfl⟩
  intro x hx
  simp only [regmap.issue, List.drop_left, List.mem_singleton] at hx
  rw [hx]

theorem setup_identity_mismatch_witness :
    0xAC < 256 ∧ 0xAC ≠ ADXL372_DEVID_VAL
    ∧ (adxl372_setup adxl372_state.zero (regmap.const 0 [0xAC])).ret = -ENODEV
    ∧ (adxl372_setup adxl372_state.zero (regmap.const 0 [0xAC])).map.log
        = [⟨Txn.read (ADXL372_REG_READ ADXL372_DEVID), 0⟩]
    ∧ (adxl372_setup adxl372_state.zero (regmap.const 0 [0xAC])).st = adxl372_state.zero :=
  have h := setup_identity_mismatch adxl372_state.zero (regmap.const 0 [0xAC]) 0xAC
    (by decide) (by decide) (by decide) rfl
  ⟨by decide, by decide, h.1, h.2.1, h.2.2.2⟩

/-! ## C8: direct reads -/

theorem sign_extend32_12 (v : Nat) (hv : v < 4096) :
    sign_extend32 v 11 = if v < 2048 then (v : Int) else (v : Int) - 4096 := by
  unfold sign_extend32
  simp only [Nat.shiftLeft_eq, Nat.reduceSub, Nat.reducePow]
  have hx : v * 1048576 % 4294967296 = v * 1048576 := by omega
  rw [hx]
  split <;> split <;> push_cast <;> omega

theorem be16_to_cpu_eq (hi lo : Nat) (hlo : lo < 256) : be16_to_cpu hi lo = hi * 256 + lo := by
  unfold be16_to_cpu
  rw [Nat.shiftLeft_eq, Nat.mul_comm]
  exact (Nat.mul_add_lt_is_or (i := 8) hlo hi).symm

/-- C8: for a raw-channel read through `adxl372_raw`: if buffered acquisition
is enabled it returns -EBUSY and performs no bus transfer; otherwise, for
every pair of bytes (hi, lo) returned by the 2-byte read of the axis
register of an acceleration channel, it returns IIO_VAL_INT and the reported
value is the two's-complement reading of the 12-bit quantity
v = ((hi << 8) | lo) >> 4, i.e. v when v < 2048 and v - 4096 otherwise, and
so lies in [-2048, 2047]. -/
theorem raw_read_value (indio_dev : iio_dev) (map : regmap) (chan : iio_chan_spec)
    (val val2 : Int) :
    (indio_dev.buffer_enabled = true →
      (adxl372_raw indio_dev map chan val val2 .IIO_CHAN_INFO_RAW).ret = -EBUSY
      ∧ (adxl372_raw indio_dev map chan val val2 .IIO_CHAN_INFO_RAW).map.log = map.log)
    ∧ (indio_dev.buffer_enabled = false → chan ∈ adxl372_channels →
        ∀ hi lo : Nat, hi < 256 → lo < 256 →
        ¬ (map.respond map.log (Txn.bulk_read (ADXL372_REG_READ chan.address) 2)).ret < 0 →
        (map.respond map.log (Txn.bulk_read (ADXL372_REG_READ chan.address) 2)).bytes
          = [hi, lo] →
        (adxl372_raw indio_dev map chan val val2 .IIO_CHAN_INFO_RAW).ret = IIO_VAL_INT
        ∧ (adxl372_raw indio_dev map chan val val2 .IIO_CHAN_INFO_RAW).val
            = (if ((hi <<< 8) ||| lo) >>> 4 < 2048
               then ((((hi <<< 8) ||| lo) >>> 4 : Nat) : Int)
               else ((((hi <<< 8) ||| lo) >>> 4 : Nat) : Int) - 4096)
        ∧ -2048 ≤ (adxl372_raw indio_dev map chan val val2 .IIO_CHAN_INFO_RAW).val
        ∧ (adxl372_raw indio_dev map chan val val2 .IIO_CHAN_INFO_RAW).val ≤ 2047) := by
  constructor
  · intro hen
    simp only [adxl372_raw, hen, if_true, and_self]
  · intro hen hchan hi lo hhi hlo hok hbytes
    have hsh : chan.shift = 4 ∧ chan.realbits = 12 := by
      simp only [adxl372_channels, List.mem_cons, List.mem_singleton, List.not_mem_nil,
        or_false] at hchan
      rcases hchan with h | h | h <;> rw [h] <;> exact ⟨rfl, rfl⟩
    have hbe := be16_to_cpu_eq hi lo hlo
    have hbe' : (hi <<< 8) ||| lo = hi * 256 + lo := hbe
    have hnn : ¬ ((hi * 256 + lo : Nat) : Int) < 0 := by omega
    have hv : (hi * 256 + lo) >>> 4 < 4096 := by
      rw [Nat.shiftRight_eq_div_pow]; omega
    have hr : adxl372_raw indio_dev map chan val val2 .IIO_CHAN_INFO_RAW
        = ⟨IIO_VAL_INT, sign_extend32 ((hi * 256 + lo) >>> 4) 11, val2,
            (map.issue (Txn.bulk_read (ADXL372_REG_READ chan.address) 2)).2⟩ := by
      simp only [adxl372_raw, hen, adxl372_read_axis, regmap_bulk_read, regmap.issue, hok,
        if_false, hbytes, List.getD_cons_zero, List.getD_cons_succ, Nat.mod_eq_of_lt hhi,
        Nat.mod_eq_of_lt hlo, hnn, hsh.1, hsh.2, Int.toNat_ofNat, hbe, Nat.reduceSub,
        Bool.false_eq_true]
    rw [hr, hbe']
    have hse := sign_extend32_12 _ hv
    refine ⟨rfl, hse, ?_, ?_⟩
    · show -2048 ≤ sign_extend32 ((hi * 256 + lo) >>> 4) 11
      rw [hse]; split <;> omega
    · show sign_extend32 ((hi * 256 + lo) >>> 4) 11 ≤ 2047
      rw [hse]; split <;> omega

theorem raw_read_value_witness :
    (adxl372_raw ⟨true, 7, 4⟩ (regmap.const 0 [0x80, 0x10]) (ADXL372_ACCEL_CHANNEL ADXL372_X_DATA_H)
        0 0 .IIO_CHAN_INFO_RAW).ret = -EBUSY
    ∧ (adxl372_raw ⟨false, 7, 4⟩ (regmap.const 0 [0x80, 0x10])
        (ADXL372_ACCEL_CHANNEL ADXL372_X_DATA_H) 0 0 .IIO_CHAN_INFO_RAW).val = -2047 :=
  ⟨((raw_read_value ⟨true, 7, 4⟩ (regmap.const 0 [0x80, 0x10])
      (ADXL372_ACCEL_CHANNEL ADXL372_X_DATA_H) 0 0).1 rfl).1,
   ((raw_read_value ⟨false, 7, 4⟩ (regmap.const 0 [0x80, 0x10])
      (ADXL372_ACCEL_CHANNEL ADXL372_X_DATA_H) 0 0).2 rfl (by decide) 0x80 0x10
      (by decide) (by decide) (by decide) rfl).2.1⟩

/-! ## C10: propagation of failures -/

theorem stops_single (l0 : List Xfer) (x : Xfer) : stops l0 x.ret (l0 ++ [x]) := by
  refine ⟨[x], rfl, ?_⟩
  by_cases h : x.ret < 0
  · exact Or.inr ⟨[], x, rfl, by simp, h, rfl⟩
  · refine Or.inl ⟨h, ?_⟩
    intro y hy
    rw [List.mem_singleton] at hy
    rw [hy]; exact h

theorem stops_seq {l0 l1 l2 : List Xfer} {r1 r2 : Int}
    (h1 : stops l0 r1 l1) (hok : ¬ r1 < 0) (h2 : stops l1 r2 l2) : stops l0 r2 l2 := by
  obtain ⟨e1, he1, hc1⟩ := h1
  obtain ⟨e2, he2, hc2⟩ := h2
  have hall : ∀ x ∈ e1, ¬ x.ret < 0 := by
    rcases hc1 with ⟨_, h⟩ | ⟨_, _, _, _, _, hr⟩
    · exact h
    · exact absurd (hr ▸ ‹_›) hok
  refine ⟨e1 ++ e2, by rw [he2, he1, List.append_assoc], ?_⟩
  rcases hc2 with ⟨hr2, h2⟩ | ⟨pre, x, hx, hpre, hxf, hr⟩
  · refine Or.inl ⟨hr2, ?_⟩
    intro x hx
    rcases List.mem_append.mp hx with h | h
    · exact hall x h
    · exact h2 x h
  · refine Or.inr ⟨e1 ++ pre, x, by rw [hx, List.append_assoc], ?_, hxf, hr⟩
    intro y hy
    rcases List.mem_append.mp hy with h | h
    · exact hall y h
    · exact hpre y h

theorem stops_fail_stop {l0 l1 : List Xfer} {r : Int} (h : stops l0 r l1) :
    fail_stop l0 r l1 := by
  obtain ⟨ext, he, hc⟩ := h
  refine ⟨ext, he, ?_⟩
  intro pre x post hx hxf
  rcases hc with ⟨_, hall⟩ | ⟨pre', x', hx', hpre, _, hr⟩
  · exact absurd hxf (hall x (by rw [hx]; simp))
  · rw [hx'] at hx
    rcases List.append_eq_append_iff.mp hx with ⟨a, _, hb⟩ | ⟨c, hc1, hc2⟩
    · cases a with
      | nil =>
        simp only [List.nil_append, List.cons.injEq] at hb
        exact ⟨hb.2.symm, by rw [hr, hb.1]⟩
      | cons y a =>
        simp only [List.cons_append, List.cons.injEq] at hb
        have := congrArg List.length hb.2
        simp only [List.length_nil, List.length_append, List.length_cons] at this
        omega
    · cases c with
      | nil =>
        simp only [List.nil_append, List.cons.injEq] at hc2
        exact ⟨hc2.2, by rw [hr, hc2.1]⟩
      | cons y c =>
        simp only [List.cons_append, List.cons.injEq] at hc2
        have hy : y ∈ pre' := by rw [hc1]; simp
        rw [hc2.1] at hxf
        exact absurd hxf (hpre y hy)

theorem regmap_read_stops (map : regmap) (reg : Nat) :
    stops map.log (regmap_read map reg).1 (regmap_read map reg).2.2.log :=
  stops_single map.log ⟨Txn.read reg, (map.respond map.log (Txn.read reg)).ret⟩

theorem regmap_write_stops (map : regmap) (reg val : Nat) :
    stops map.log (regmap_write map reg val).1 (regmap_write map reg val).2.log :=
  stops_single map.log ⟨Txn.write reg val, (map.respond map.log (Txn.write reg val)).ret⟩

theorem regmap_bulk_write_stops (map : regmap) (reg : Nat) (bytes : List Nat) :
    stops map.log (regmap_bulk_write map reg bytes).1 (regmap_bulk_write map reg bytes).2.log :=
  stops_single map.log
    ⟨Txn.bulk_write reg bytes, (map.respond map.log (Txn.bulk_write reg bytes)).ret⟩

theorem write_mask_stops (map : regmap) (reg_addr mask data : Nat) :
    stops map.log (adxl372_spi_write_mask map reg_addr mask data).1
      (adxl372_spi_write_mask map reg_addr mask data).2.log := by
  have h1 := regmap_read_stops map (ADXL372_REG_READ reg_addr)
  unfold adxl372_spi_write_mask
  simp only []
  generalize regmap_read map (ADXL372_REG_READ reg_addr) = r at h1 ⊢
  obtain ⟨ret, val, map1⟩ := r
  simp only [] at h1 ⊢
  split
  · exact h1
  · exact stops_seq h1 ‹_› (regmap_write_stops _ _ _)

theorem set_op_mode_stops (st : adxl372_state) (map : regmap) (m : adxl372_op_mode) :
    stops map.log (adxl372_set_op_mode st map m).ret (adxl372_set_op_mode st map m).map.log := by
  have h := write_mask_stops map ADXL372_POWER_CTL ADXL372_POWER_CTL_MODE_MSK
    (ADXL372_POWER_CTL_MODE m.toNat % 256)
  unfold adxl372_set_op_mode
  simp only []
  split <;> exact h

theorem set_odr_stops (st : adxl372_state) (map : regmap) (m : adxl372_odr) :
    stops map.log (adxl372_set_odr st map m).ret (adxl372_set_odr st map m).map.log := by
  have h := write_mask_stops map ADXL372_TIMING ADXL372_TIMING_ODR_MSK
    (ADXL372_TIMING_ODR_MODE m.toNat % 256)
  unfold adxl372_set_odr
  simp only []
  split <;> exact h

theorem set_bandwidth_stops (st : adxl372_state) (map : regmap) (m : adxl372_bandwidth) :
    stops map.log (adxl372_set_bandwidth st map m).ret
      (adxl372_set_bandwidth st map m).map.log := by
  have h := write_mask_stops map ADXL372_MEASURE ADXL372_MEASURE_BANDWIDTH_MSK
    (ADXL372_MEASURE_BANDWIDTH_MODE m.toNat % 256)
  unfold adxl372_set_bandwidth
  simp only []
  split <;> exact h

theorem set_act_proc_mode_stops (st : adxl372_state) (map : regmap)
    (m : adxl372_act_proc_mode) :
    stops map.log (adxl372_set_act_proc_mode st map m).ret
      (adxl372_set_act_proc_mode st map m).map.log := by
  have h := write_mask_stops map ADXL372_MEASURE ADXL372_MEASURE_LINKLOOP_MSK
    (ADXL372_MEASURE_LINKLOOP_MODE m.toNat % 256)
  unfold adxl372_set_act_proc_mode
  simp only []
  split <;> exact h

theorem set_activity_threshold_stops (st : adxl372_state) (map : regmap)
    (act : adxl372_th_activity) (ref : adxl372_threshold_ref_en)
    (enable : adxl372_threshold_en) (t : Nat) :
    stops map.log (adxl372_set_activity_threshold st map act ref enable t).ret
      (adxl372_set_activity_threshold st map act ref enable t).map.log :=
  regmap_bulk_write_stops map _ _

theorem set_interrupts_stops (st : adxl372_state) (map : regmap) (a b : Nat) :
    stops map.log (adxl372_set_interrupts st map a b).ret
      (adxl372_set_interrupts st map a b).map.log := by
  have h := regmap_bulk_write_stops map (ADXL372_REG_WRITE ADXL372_INT1_MAP) [a % 256, b % 256]
  unfold adxl372_set_interrupts
  simp only []
  split <;> exact h

theorem configure_fifo_stops (st : adxl372_state) (map : regmap) :
    stops map.log (adxl372_configure_fifo st map).ret (adxl372_configure_fifo st map).map.log := by
  have h1 := set_op_mode_stops st map ADXL372_STANDBY
  unfold adxl372_configure_fifo
  simp only []
  generalize adxl372_set_op_mode st map ADXL372_STANDBY = r1 at h1 ⊢
  split
  · exact h1
  · rename_i hok1
    have h2 := stops_seq h1 hok1 (regmap_bulk_write_stops r1.map
      (ADXL372_REG_WRITE ADXL372_FIFO_SAMPLES) [fifo_samples_byte r1.st, fifo_ctl_byte r1.st])
    generalize regmap_bulk_write r1.map (ADXL372_REG_WRITE ADXL372_FIFO_SAMPLES)
      [fifo_samples_byte r1.st, fifo_ctl_byte r1.st] = w at h2 ⊢
    obtain ⟨ret, map2⟩ := w
    simp only [] at h2 ⊢
    split
    · exact h2
    · exact stops_seq h2 ‹_› (set_op_mode_stops _ _ _)

theorem write_step_stops (st : adxl372_state) (map : regmap) (reg val : Nat) :
    stops map.log (write_step st map reg val).ret (write_step st map reg val).map.log :=
  regmap_write_stops map reg val

theorem andThen_stops {l0 : List Xfer} (r : Res) (rest : adxl372_state → regmap → Res)
    (h : stops l0 r.ret r.map.log)
    (hrest : ∀ st map, stops map.log (rest st map).ret (rest st map).map.log) :
    stops l0 (r.andThen rest).ret (r.andThen rest).map.log := by
  unfold Res.andThen
  split
  · exact h
  · exact stops_seq h ‹_› (hrest r.st r.map)

/-- The sequence of `adxl372_setup` stops at its first failure. -/
theorem setup_fail_stop (st : adxl372_state) (map : regmap) :
    fail_stop map.log (adxl372_setup st map).ret (adxl372_setup st map).map.log := by
  have h0 := regmap_read_stops map (ADXL372_REG_READ ADXL372_DEVID)
  unfold adxl372_setup
  generalize regmap_read map (ADXL372_REG_READ ADXL372_DEVID) = r0 at h0 ⊢
  obtain ⟨ret0, val0, map0⟩ := r0
  simp only [] at h0 ⊢
  split
  · exact stops_fail_stop h0
  rename_i hok0
  split
  · -- identity mismatch: the only transfer of the run succeeded
    obtain ⟨ext, he, hc⟩ := h0
    refine ⟨ext, he, ?_⟩
    intro pre x post hx hxf
    rcases hc with ⟨_, hall⟩ | ⟨_, _, _, _, hf, hr⟩
    · exact absurd hxf (hall x (by rw [hx]; simp))
    · exact absurd (hr ▸ hf) hok0
  apply stops_fail_stop
  refine stops_seq h0 hok0 ?_
  refine andThen_stops _ _ (set_op_mode_stops _ _ _) fun st map => ?_
  refine andThen_stops _ _ (set_activity_threshold_stops _ _ _ _ _ _) fun st map => ?_
  refine andThen_stops _ _ (set_activity_threshold_stops _ _ _ _ _ _) fun st map => ?_
  refine andThen_stops _ _ (set_act_proc_mode_stops _ _ _) fun st map => ?_
  refine andThen_stops _ _ (set_odr_stops _ _ _) fun st map => ?_
  refine andThen_stops _ _ (set_bandwidth_stops _ _ _) fun st map => ?_
  refine andThen_stops _ _ (write_step_stops _ _ _ _) fun st map => ?_
  refine andThen_stops _ _ (write_step_stops _ _ _ _) fun st map => ?_
  exact set_op_mode_stops _ _ _

/-- C10 (as stated, refuted): on a bus where every transfer fails with -EIO,
`adxl372_buffer_predisable` issues a second transfer after the failed
interrupt-map write and returns 0, not the error. -/
theorem predisable_counterexample :
    (adxl372_buffer_predisable adxl372_state.zero (regmap.const (-5) [])).map.log
      = [⟨Txn.bulk_write (ADXL372_REG_WRITE ADXL372_INT1_MAP) [0, 0], -5⟩,
         ⟨Txn.read (ADXL372_REG_READ ADXL372_POWER_CTL), -5⟩]
    ∧ (adxl372_buffer_predisable adxl372_state.zero (regmap.const (-5) [])).ret = 0
    ∧ ¬ fail_stop [] (adxl372_buffer_predisable adxl372_state.zero (regmap.const (-5) [])).ret
        (adxl372_buffer_predisable adxl372_state.zero (regmap.const (-5) [])).map.log := by
  have hlog : (adxl372_buffer_predisable adxl372_state.zero (regmap.const (-5) [])).map.log
      = [⟨Txn.bulk_write (ADXL372_REG_WRITE ADXL372_INT1_MAP) [0, 0], -5⟩,
         ⟨Txn.read (ADXL372_REG_READ ADXL372_POWER_CTL), -5⟩] := by decide
  refine ⟨hlog, rfl, ?_⟩
  rintro ⟨ext, he, hc⟩
  rw [hlog, List.nil_append] at he
  have := hc [] ⟨Txn.bulk_write (ADXL372_REG_WRITE ADXL372_INT1_MAP) [0, 0], -5⟩
    [⟨Txn.read (ADXL372_REG_READ ADXL372_POWER_CTL), -5⟩] he.symm (by decide)
  exact absurd this.1 (by simp)

/-- C10 (amended): in device setup (`adxl372_setup`) and in FIFO
configuration (`adxl372_configure_fifo`), for every transport behaviour, a
register transfer that fails is the last transfer the sequence issues, and
the sequence returns that transfer's error to its caller.  Buffer disable
(`adxl372_buffer_predisable`) discards the results of its two steps: it runs
`adxl372_configure_fifo` whatever the interrupt-map write returned, and
returns 0. -/
theorem sequences_fail_stop (st : adxl372_state) (map : regmap) :
    fail_stop map.log (adxl372_setup st map).ret (adxl372_setup st map).map.log
    ∧ fail_stop map.log (adxl372_configure_fifo st map).ret
        (adxl372_configure_fifo st map).map.log
    ∧ (adxl372_buffer_predisable st map).ret = 0
    ∧ (adxl372_buffer_predisable st map).map.log
        = (adxl372_configure_fifo
            { (adxl372_set_interrupts st map 0 0).st with fifo_mode := ADXL372_FIFO_BYPASSED }
            (adxl372_set_interrupts st map 0 0).map).map.log :=
  ⟨setup_fail_stop st map, stops_fail_stop (configure_fifo_stops st map), rfl, rfl⟩

/-! ## C9: failure of the buffer enable -/

/-- C9 (as stated, refuted): from a state whose fifo_mode is streamed, a
watermark request of 0 makes `adxl372_buffer_postenable` return -EINVAL
before it touches fifo_mode, which is still streamed on return. -/
theorem postenable_error_counterexample :
    (adxl372_buffer_postenable ⟨false, 7, 4⟩
        (adxl372_set_watermark
          { adxl372_state.zero with fifo_mode := ADXL372_FIFO_STREAMED } 0).2
        (regmap.const 0 [])).ret < 0
    ∧ (adxl372_buffer_postenable ⟨false, 7, 4⟩
        (adxl372_set_watermark
          { adxl372_state.zero with fifo_mode := ADXL372_FIFO_STREAMED } 0).2
        (regmap.const 0 [])).st.fifo_mode = ADXL372_FIFO_STREAMED
    ∧ (adxl372_buffer_postenable ⟨false, 7, 4⟩
        (adxl372_set_watermark
          { adxl372_state.zero with fifo_mode := ADXL372_FIFO_STREAMED } 0).2
        (regmap.const 0 [])).st.fifo_mode ≠ ADXL372_FIFO_BYPASSED := by
  decide

/-- C9 (amended): for every prior device state, every watermark held in it
and every transport behaviour, if `adxl372_buffer_postenable` returns an
error then: when the error comes from `adxl372_configure_fifo` (the watermark
is non-zero and the interrupt-map write succeeded), fifo_mode = Bypassed on
return; on the two early exits (watermark 0, or the interrupt-map write
fails) fifo_mode is left as it was before the call; so fifo_mode = Bypassed
on return whenever it was Bypassed before the call. -/
theorem postenable_error_fifo_mode (indio_dev : iio_dev) (st : adxl372_state) (map : regmap)
    (herr : (adxl372_buffer_postenable indio_dev st map).ret < 0) :
    (st.watermark ≠ 0 →
      ¬ (adxl372_set_interrupts st map ADXL372_INT1_MAP_FIFO_FULL_MSK 0).ret < 0 →
      (adxl372_buffer_postenable indio_dev st map).st.fifo_mode = ADXL372_FIFO_BYPASSED)
    ∧ (st.watermark = 0 ∨
        (adxl372_set_interrupts st map ADXL372_INT1_MAP_FIFO_FULL_MSK 0).ret < 0 →
      (adxl372_buffer_postenable indio_dev st map).st.fifo_mode = st.fifo_mode)
    ∧ (st.fifo_mode = ADXL372_FIFO_BYPASSED →
      (adxl372_buffer_postenable indio_dev st map).st.fifo_mode = ADXL372_FIFO_BYPASSED) := by
  have hearly : st.watermark = 0 ∨
        (adxl372_set_interrupts st map ADXL372_INT1_MAP_FIFO_FULL_MSK 0).ret < 0 →
      (adxl372_buffer_postenable indio_dev st map).st.fifo_mode = st.fifo_mode := by
    intro h
    by_cases hw : st.watermark = 0
    · simp only [adxl372_buffer_postenable, hw, if_true]
    · have hi : (adxl372_set_interrupts st map ADXL372_INT1_MAP_FIFO_FULL_MSK 0).ret < 0 := by
        rcases h with h | h
        · exact absurd h hw
        · exact h
      have hf := set_interrupts_fifo_fields st map ADXL372_INT1_MAP_FIFO_FULL_MSK 0
      simp only [fifo_fields, Prod.mk.injEq] at hf
      simp only [adxl372_buffer_postenable, hw, if_false, hi, if_true]
      exact hf.1
  have hlate : st.watermark ≠ 0 →
      ¬ (adxl372_set_interrupts st map ADXL372_INT1_MAP_FIFO_FULL_MSK 0).ret < 0 →
      (adxl372_buffer_postenable indio_dev st map).st.fifo_mode = ADXL372_FIFO_BYPASSED := by
    intro hw hi
    unfold adxl372_buffer_postenable at herr ⊢
    simp only [hw, hi, if_false] at herr ⊢
    generalize adxl372_configure_fifo _ _ = c at herr ⊢
    by_cases hc : c.ret < 0
    · simp only [hc, if_true]
      have hf := set_interrupts_fifo_fields
        { c.st with fifo_mode := ADXL372_FIFO_BYPASSED } c.map 0 0
      simp only [fifo_fields, Prod.mk.injEq] at hf
      exact hf.1
    · simp only [hc, if_false] at herr
  refine ⟨hlate, hearly, ?_⟩
  intro hb
  by_cases h : st.watermark = 0 ∨
      (adxl372_set_interrupts st map ADXL372_INT1_MAP_FIFO_FULL_MSK 0).ret < 0
  · rw [hearly h, hb]
  · rw [not_or] at h
    exact hlate h.1 h.2

theorem postenable_error_fifo_mode_witness :
    (adxl372_buffer_postenable ⟨false, 7, 4⟩
        { adxl372_state.zero with watermark := 5, fifo_mode := ADXL372_FIFO_TRIGGERED }
        (regmap.script [⟨0, []⟩, ⟨-5, []⟩])).ret < 0
    ∧ (adxl372_buffer_postenable ⟨false, 7, 4⟩
        { adxl372_state.zero with watermark := 5, fifo_mode := ADXL372_FIFO_TRIGGERED }
        (regmap.script [⟨0, []⟩, ⟨-5, []⟩])).st.fifo_mode = ADXL372_FIFO_BYPASSED :=
  ⟨by decide,
    (postenable_error_fifo_mode ⟨false, 7, 4⟩
      { adxl372_state.zero with watermark := 5, fifo_mode := ADXL372_FIFO_TRIGGERED }
      (regmap.script [⟨0, []⟩, ⟨-5, []⟩]) (by decide)).1 (by decide) (by decide)⟩

/-! ## C12: the address tokens -/

theorem reg_write_eq (a : Nat) (ha : a < 128) : ADXL372_REG_WRITE a = 2 * a := by
  unfold ADXL372_REG_WRITE
  have h : a &&& 0xFF = a % 256 := Nat.and_pow_two_sub_one_eq_mod a 8
  rw [h, Nat.shiftLeft_eq]
  omega

theorem reg_read_eq (a : Nat) (ha : a < 128) : ADXL372_REG_READ a = 2 * a + 1 := by
  have hw := reg_write_eq a ha
  unfold ADXL372_REG_WRITE at hw
  unfold ADXL372_REG_READ
  rw [hw]
  exact (Nat.mul_add_lt_is_or (i := 1) (by decide : 1 < 2 ^ 1) a).symm

/-- C12: for every register address a in 0..127, ADXL372_REG_READ(a) =
2a + 1 (odd) and ADXL372_REG_WRITE(a) = 2a (even): both tokens equal a << 1
apart from bit 0, fit in 8 bits, and distinct addresses give distinct
tokens. -/
theorem reg_tokens (a : Nat) (ha : a < 128) :
    ADXL372_REG_READ a = 2 * a + 1
    ∧ ADXL372_REG_WRITE a = 2 * a
    ∧ ADXL372_REG_READ a % 2 = 1
    ∧ ADXL372_REG_WRITE a % 2 = 0
    ∧ ADXL372_REG_WRITE a = a <<< 1
    ∧ ADXL372_REG_READ a = (a <<< 1) + 1
    ∧ ADXL372_REG_READ a >>> 1 = a
    ∧ ADXL372_REG_WRITE a >>> 1 = a
    ∧ ADXL372_REG_READ a < 256
    ∧ ADXL372_REG_WRITE a < 256
    ∧ (∀ b, b < 128 → ADXL372_REG_READ a = ADXL372_REG_READ b → a = b)
    ∧ (∀ b, b < 128 → ADXL372_REG_WRITE a = ADXL372_REG_WRITE b → a = b)
    ∧ (∀ b, b < 128 → ADXL372_REG_READ a ≠ ADXL372_REG_WRITE b) := by
  have hr := reg_read_eq a ha
  have hw := reg_write_eq a ha
  have hs : a <<< 1 = 2 * a := by rw [Nat.shiftLeft_eq]; omega
  rw [hr, hw, hs]
  simp only [Nat.shiftRight_eq_div_pow]
  refine ⟨trivial, trivial, by omega, by omega, trivial, trivial, by omega, by omega,
    by omega, by omega, ?_, ?_, ?_⟩
  · intro b hb h
    rw [reg_read_eq b hb] at h
    omega
  · intro b hb h
    rw [reg_write_eq b hb] at h
    omega
  · intro b hb h
    rw [reg_write_eq b hb] at h
    omega

theorem reg_tokens_witness :
    0x3F < 128
    ∧ ADXL372_REG_READ ADXL372_POWER_CTL = 2 * 0x3F + 1
    ∧ ADXL372_REG_WRITE ADXL372_POWER_CTL = 2 * 0x3F :=
  ⟨by decide, (reg_tokens 0x3F (by decide)).1, (reg_tokens 0x3F (by decide)).2.1⟩

/-! ## C11: the completion notification -/

/-- The count decoded by `adxl372_get_status` from a successful read has ten
bits. -/
theorem get_status_fifo_entries_lt (map : regmap) (s1 s2 fe : Nat)
    (hok : ¬ (adxl372_get_status map s1 s2 fe).ret < 0) :
    (adxl372_get_status map s1 s2 fe).fifo_entries < 1024 := by
  unfold adxl372_get_status regmap_bulk_read at hok ⊢
  simp only [regmap.issue] at hok ⊢
  split
  · rename_i h
    simp only [h, if_true, not_true_eq_false] at hok
  · show (((_ % 256 &&& 0x3) <<< 8) ||| (_ % 256)) % 65536 < 1024
    rw [fifo_count_eq _ _ (Nat.mod_lt _ (by decide))]
    omega

/-- The push loop ends when `i` cannot wrap around (`limit + step` fits the
`u16`): started at `i` with `fuel + 1` iterations to spend, where
`limit <= i + fuel * step`, it yields pushes only, each at an offset from `i`
up to but excluding `limit`. -/
theorem push_loop_some (limit step : Nat) (hstep : 0 < step) (hwrap : limit + step ≤ 65536) :
    ∀ fuel i, limit ≤ i + fuel * step →
      ∃ evs, push_loop (fuel + 1) i limit step = some evs
        ∧ ∀ e ∈ evs, ∃ o, e = Event.push o ∧ i ≤ o ∧ o < limit := by
  intro fuel
  induction fuel with
  | zero =>
    intro i hi
    refine ⟨[], ?_, by simp⟩
    have : ¬ i < limit := by omega
    simp only [push_loop, this, if_false]
  | succ n ih =>
    intro i hi
    by_cases hlt : i < limit
    · have hnext : (i + step) % 65536 = i + step := Nat.mod_eq_of_lt (by omega)
      have hfuel : limit ≤ (i + step) + n * step := by
        rw [Nat.succ_mul] at hi; omega
      obtain ⟨evs, hevs, hall⟩ := ih (i + step) hfuel
      refine ⟨Event.push i :: evs, ?_, ?_⟩
      · rw [push_loop]
        simp only [hlt, if_true, hnext, hevs, Option.map_some']
      · intro e he
        rcases List.mem_cons.mp he with h | h
        · exact ⟨i, h, Nat.le_refl i, hlt⟩
        · obtain ⟨o, ho, hio, hol⟩ := hall e h
          exact ⟨o, ho, by omega, hol⟩
    · refine ⟨[], ?_, by simp⟩
      rw [push_loop]
      simp only [hlt, if_false]

theorem count_notify_done_pushes (evs : List Event)
    (hall : ∀ e ∈ evs, ∃ o, e = Event.push o) :
    (evs ++ [Event.notify_done]).count Event.notify_done = 1 := by
  have h0 : evs.count Event.notify_done = 0 := by
    rw [List.count_eq_zero]
    intro hmem
    obtain ⟨o, ho⟩ := hall _ hmem
    cases ho
  rw [List.count_append, h0]
  rfl

/-- The trace of `adxl372_trigger_handler` when a drain is due, both reads
succeed, the set size is 1, 2 or 3 and does not exceed the reported count:
with 1024 iterations or more to spend the handler returns, after one bulk
read of `2 * (count - fifo_set_size)` bytes, a run of pushes at offsets below
that byte count, followed by the completion notification. -/
theorem trigger_handler_drain_trace (fuel : Nat) (st : adxl372_state) (map : regmap)
    (hfuel : 1024 ≤ fuel)
    (hsize1 : 1 ≤ st.fifo_set_size) (hsize3 : st.fifo_set_size ≤ 3)
    (hok : ¬ (adxl372_get_status map 0 0 0).ret < 0)
    (hmode : st.fifo_mode ≠ ADXL372_FIFO_BYPASSED)
    (hfull : ADXL372_STATUS_1_FIFO_FULL (adxl372_get_status map 0 0 0).status1 ≠ 0)
    (hcount : st.fifo_set_size ≤ (adxl372_get_status map 0 0 0).fifo_entries)
    (hread : ¬ (adxl372_read_fifo (adxl372_get_status map 0 0 0).map
        ((adxl372_get_status map 0 0 0).fifo_entries - st.fifo_set_size)).1 < 0) :
    ∃ evs, adxl372_trigger_handler fuel st map
        = some ((adxl372_read_fifo (adxl372_get_status map 0 0 0).map
            ((adxl372_get_status map 0 0 0).fifo_entries - st.fifo_set_size)).2,
          evs ++ [Event.notify_done])
      ∧ ∀ e ∈ evs, ∃ o, e = Event.push o
          ∧ o < ((adxl372_get_status map 0 0 0).fifo_entries - st.fifo_set_size) * 2 := by
  have hlt := get_status_fifo_entries_lt map 0 0 0 hok
  have hsub := fifo_entries_sub_of_le (adxl372_get_status map 0 0 0).fifo_entries
    st.fifo_set_size (by omega) hcount
  obtain ⟨n, hn⟩ : ∃ n, fuel = n + 1 := ⟨fuel - 1, by omega⟩
  have hloop := push_loop_some
    (((adxl372_get_status map 0 0 0).fifo_entries - st.fifo_set_size) * 2)
    (st.fifo_set_size * 2) (by omega) (by omega) n 0 (by
      have h2 : n * 2 ≤ n * (st.fifo_set_size * 2) := Nat.mul_le_mul_left n (by omega)
      omega)
  obtain ⟨evs, hevs, hall⟩ := hloop
  refine ⟨evs, ?_, ?_⟩
  · unfold adxl372_trigger_handler
    simp only [hok, if_false, hmode, hfull, ne_eq, not_false_eq_true, and_self, if_true, hsub]
    generalize adxl372_read_fifo (adxl372_get_status map 0 0 0).map
      ((adxl372_get_status map 0 0 0).fifo_entries - st.fifo_set_size) = rd at hread ⊢
    obtain ⟨ret, map2⟩ := rd
    simp only [] at hread ⊢
    simp only [hread, if_false, hn, hevs, Option.map_some']
  · intro e he
    obtain ⟨o, ho, _, hol⟩ := hall e he
    exact ⟨o, ho, hol⟩

/-- C11: for every device state in which the drain loop is finite
(fifo_set_size in 1..3, and fifo_set_size <= reported count when a drain is
due) and every transport outcome, `adxl372_trigger_handler` returns (1024
loop iterations suffice) and its event trace contains exactly one
completion notification, which is the last event of the trace; when the
status read or the FIFO read fails, the trace is that notification alone: no
sample set is pushed. -/
theorem trigger_handler_notifies_once (fuel : Nat) (st : adxl372_state) (map : regmap)
    (hfuel : 1024 ≤ fuel)
    (hsize1 : 1 ≤ st.fifo_set_size) (hsize3 : st.fifo_set_size ≤ 3)
    (hcount : ¬ (adxl372_get_status map 0 0 0).ret < 0 →
      st.fifo_mode ≠ ADXL372_FIFO_BYPASSED →
      ADXL372_STATUS_1_FIFO_FULL (adxl372_get_status map 0 0 0).status1 ≠ 0 →
      st.fifo_set_size ≤ (adxl372_get_status map 0 0 0).fifo_entries) :
    ∃ out, adxl372_trigger_handler fuel st map = some out
      ∧ out.2.count Event.notify_done = 1
      ∧ out.2.getLast? = some Event.notify_done
      ∧ ((adxl372_get_status map 0 0 0).ret < 0 → out.2 = [Event.notify_done])
      ∧ (¬ (adxl372_get_status map 0 0 0).ret < 0 →
          st.fifo_mode ≠ ADXL372_FIFO_BYPASSED →
          ADXL372_STATUS_1_FIFO_FULL (adxl372_get_status map 0 0 0).status1 ≠ 0 →
          (adxl372_read_fifo (adxl372_get_status map 0 0 0).map
            (fifo_entries_sub (adxl372_get_status map 0 0 0).fifo_entries
              st.fifo_set_size)).1 < 0 →
          out.2 = [Event.notify_done])
      ∧ (¬ (st.fifo_mode ≠ ADXL372_FIFO_BYPASSED
            ∧ ADXL372_STATUS_1_FIFO_FULL (adxl372_get_status map 0 0 0).status1 ≠ 0) →
          out.2 = [Event.notify_done]) := by
  by_cases hok : (adxl372_get_status map 0 0 0).ret < 0
  · -- the status read fails
    refine ⟨((adxl372_get_status map 0 0 0).map, [Event.notify_done]), ?_, rfl, rfl,
      fun _ => rfl, fun h => absurd hok h, fun _ => rfl⟩
    simp only [adxl372_trigger_handler, hok, if_true]
  by_cases hdue : st.fifo_mode ≠ ADXL372_FIFO_BYPASSED
      ∧ ADXL372_STATUS_1_FIFO_FULL (adxl372_get_status map 0 0 0).status1 ≠ 0
  swap
  · -- no drain is due
    refine ⟨((adxl372_get_status map 0 0 0).map, [Event.notify_done]), ?_, rfl, rfl,
      fun _ => rfl, fun _ hm hf => absurd ⟨hm, hf⟩ hdue, fun _ => rfl⟩
    simp only [adxl372_trigger_handler, hok, if_false, hdue]
  have hle := hcount hok hdue.1 hdue.2
  have hlt := get_status_fifo_entries_lt map 0 0 0 hok
  have hsub := fifo_entries_sub_of_le (adxl372_get_status map 0 0 0).fifo_entries
    st.fifo_set_size (by omega) hle
  by_cases hread : (adxl372_read_fifo (adxl372_get_status map 0 0 0).map
      ((adxl372_get_status map 0 0 0).fifo_entries - st.fifo_set_size)).1 < 0
  · -- the FIFO read fails
    refine ⟨((adxl372_read_fifo (adxl372_get_status map 0 0 0).map
        ((adxl372_get_status map 0 0 0).fifo_entries - st.fifo_set_size)).2,
        [Event.notify_done]), ?_, rfl, rfl, fun _ => rfl, fun _ _ _ _ => rfl, fun _ => rfl⟩
    unfold adxl372_trigger_handler
    simp only [hok, if_false, hdue, ne_eq, not_false_eq_true, and_self, if_true, hsub]
    generalize adxl372_read_fifo (adxl372_get_status map 0 0 0).map
      ((adxl372_get_status map 0 0 0).fifo_entries - st.fifo_set_size) = rd at hread ⊢
    obtain ⟨ret, map2⟩ := rd
    simp only [] at hread ⊢
    simp only [hread, if_true]
  · -- both reads succeed
    obtain ⟨evs, hevs, hall⟩ := trigger_handler_drain_trace fuel st map hfuel hsize1 hsize3
      hok hdue.1 hdue.2 hle hread
    refine ⟨_, hevs, ?_, ?_, fun h => absurd h hok, ?_, fun h => absurd hdue h⟩
    · exact count_notify_done_pushes evs (fun e he => (hall e he).imp fun _ h => h.1)
    · simp only [List.getLast?_append, List.getLast?_singleton]
      rfl
    · intro _ _ _ hf
      rw [hsub] at hf
      exact absurd hf hread

theorem trigger_handler_notifies_once_witness :
    1024 ≤ 1024
    ∧ (∃ out, adxl372_trigger_handler 1024
          { adxl372_state.zero with fifo_mode := ADXL372_FIFO_STREAMED, fifo_set_size := 3 }
          (regmap.const 0 [0x04, 0x00, 0x00, 0x09]) = some out
        ∧ out.2.count Event.notify_done = 1
        ∧ out.2.getLast? = some Event.notify_done)
    ∧ (adxl372_trigger_handler 1024
          { adxl372_state.zero with fifo_mode := ADXL372_FIFO_STREAMED, fifo_set_size := 3 }
          (regmap.const 0 [0x04, 0x00, 0x00, 0x09])).map (fun out => out.2)
        = some [Event.push 0, Event.push 6, Event.notify_done] :=
  ⟨by decide,
    (trigger_handler_notifies_once 1024
      { adxl372_state.zero with fifo_mode := ADXL372_FIFO_STREAMED, fifo_set_size := 3 }
      (regmap.const 0 [0x04, 0x00, 0x00, 0x09]) (by decide) (by decide) (by decide)
      (by decide)).imp (fun _ h => ⟨h.1, h.2.1, h.2.2.1⟩),
    by decide⟩

/-! ## C13: bounds of the transfer buffer -/

/-- Where the handler stays inside `d8`: when a drain is due, both reads
succeed, the set size is 1, 2 or 3 and the reported count lies between the
set size and the 512 slots of the FIFO, the bulk read asks for at most 1024
bytes and every pushed slice ends at or before byte 1024. -/
theorem trigger_handler_in_bounds (fuel : Nat) (st : adxl372_state) (map : regmap)
    (hfuel : 1024 ≤ fuel)
    (hsize1 : 1 ≤ st.fifo_set_size) (hsize3 : st.fifo_set_size ≤ 3)
    (hok : ¬ (adxl372_get_status map 0 0 0).ret < 0)
    (hmode : st.fifo_mode ≠ ADXL372_FIFO_BYPASSED)
    (hfull : ADXL372_STATUS_1_FIFO_FULL (adxl372_get_status map 0 0 0).status1 ≠ 0)
    (hcount : st.fifo_set_size ≤ (adxl372_get_status map 0 0 0).fifo_entries)
    (hcap : (adxl372_get_status map 0 0 0).fifo_entries ≤ ADXL372_FIFO_SIZE)
    (hread : ¬ (adxl372_read_fifo (adxl372_get_status map 0 0 0).map
        ((adxl372_get_status map 0 0 0).fifo_entries - st.fifo_set_size)).1 < 0) :
    ∃ out, adxl372_trigger_handler fuel st map = some out
      ∧ (∃ ret, out.1.log = (adxl372_get_status map 0 0 0).map.log ++
          [⟨Txn.bulk_read (ADXL372_REG_READ ADXL372_FIFO_DATA)
              (((adxl372_get_status map 0 0 0).fifo_entries - st.fifo_set_size) * 2), ret⟩])
      ∧ ((adxl372_get_status map 0 0 0).fifo_entries - st.fifo_set_size) * 2 ≤ d8_size
      ∧ ∀ o, Event.push o ∈ out.2 → o + 2 * st.fifo_set_size ≤ d8_size := by
  obtain ⟨evs, hevs, hall⟩ := trigger_handler_drain_trace fuel st map hfuel hsize1 hsize3
    hok hmode hfull hcount hread
  unfold ADXL372_FIFO_SIZE at hcap
  refine ⟨_, hevs, ?_, by unfold d8_size; omega, ?_⟩
  · simp only [adxl372_read_fifo, regmap_bulk_read, regmap.issue]
    split <;> exact ⟨_, rfl⟩
  · intro o ho
    simp only [List.mem_append, List.mem_singleton, reduceCtorEq, or_false] at ho
    obtain ⟨o', ho', hlt⟩ := hall _ ho
    cases ho'
    unfold d8_size
    omega

/-- When the `u16` byte limit of the push loop cannot be reached
(`limit >= 65536`), the loop never ends, whatever the fuel. -/
theorem push_loop_diverges (limit step : Nat) (hlimit : 65536 ≤ limit) :
    ∀ fuel i, i < 65536 → push_loop fuel i limit step = none := by
  intro fuel
  induction fuel with
  | zero => intro i _; rfl
  | succ n ih =>
    intro i hi
    have hlt : i < limit := by omega
    rw [push_loop]
    simp only [hlt, if_true, ih _ (Nat.mod_lt _ (by decide)), Option.map_none']

set_option maxRecDepth 100000 in
/-- C13 (code bug, evaluated): in streamed mode with `fifo_set_size = 3`,
(a) the status block [0x04, 0x00, 0x00, 0x02] (fifo-full, 2 entries) makes
the handler ask for 131070 bytes into the 1024-byte buffer `d8`; (b) the
status block [0x04, 0x00, 0x02, 0x58] (fifo-full, 600 entries) makes it ask
for 1194 bytes and push, among others, the slice that starts at byte 1188
and ends at byte 1194. -/
theorem trigger_handler_out_of_bounds :
    ((adxl372_trigger_handler 0
        { adxl372_state.zero with fifo_mode := ADXL372_FIFO_STREAMED, fifo_set_size := 3 }
        (regmap.script [⟨0, [0x04, 0x00, 0x00, 0x02]⟩, ⟨-5, []⟩])).map
          (fun out => out.1.log.map (fun x => x.txn))
      = some [Txn.bulk_read (ADXL372_REG_READ ADXL372_STATUS_1) 4,
              Txn.bulk_read (ADXL372_REG_READ ADXL372_FIFO_DATA) 131070])
    ∧ d8_size < 131070
    ∧ ((adxl372_trigger_handler 1024
        { adxl372_state.zero with fifo_mode := ADXL372_FIFO_STREAMED, fifo_set_size := 3 }
        (regmap.const 0 [0x04, 0x00, 0x02, 0x58])).map
          (fun out => out.1.log.map (fun x => x.txn))
      = some [Txn.bulk_read (ADXL372_REG_READ ADXL372_STATUS_1) 4,
              Txn.bulk_read (ADXL372_REG_READ ADXL372_FIFO_DATA) 1194])
    ∧ d8_size < 1194
    ∧ ((adxl372_trigger_handler 1024
        { adxl372_state.zero with fifo_mode := ADXL372_FIFO_STREAMED, fifo_set_size := 3 }
        (regmap.const 0 [0x04, 0x00, 0x02, 0x58])).map
          (fun out => decide (Event.push 1188 ∈ out.2))
      = some true)
    ∧ d8_size < 1188 + 2 * 3 := by
  decide

/-! ## C14: the FIFO configuration bytes -/

/-- The transfers of `adxl372_configure_fifo` once the device is in standby:
the bulk write of the two bytes to FIFO_SAMPLES and FIFO_CTL follows the
read-modify-write of POWER_CTL. -/
theorem configure_fifo_bytes (st : adxl372_state) (map : regmap)
    (hstandby : ¬ (adxl372_set_op_mode st map ADXL372_STANDBY).ret < 0) :
    ∃ ret rest, (adxl372_configure_fifo st map).map.log
      = (adxl372_set_op_mode st map ADXL372_STANDBY).map.log
        ++ ⟨Txn.bulk_write (ADXL372_REG_WRITE ADXL372_FIFO_SAMPLES)
              [fifo_samples_byte st, fifo_ctl_byte st], ret⟩ :: rest := by
  have hf := set_op_mode_fifo_fields st map ADXL372_STANDBY
  have hs : fifo_samples_byte (adxl372_set_op_mode st map ADXL372_STANDBY).st
      = fifo_samples_byte st := by
    simp only [fifo_fields, Prod.mk.injEq] at hf
    simp only [fifo_samples_byte, hf.2.2.2]
  have hc : fifo_ctl_byte (adxl372_set_op_mode st map ADXL372_STANDBY).st
      = fifo_ctl_byte st := by
    simp only [fifo_fields, Prod.mk.injEq] at hf
    simp only [fifo_ctl_byte, hf.1, hf.2.1, hf.2.2.2]
  unfold adxl372_configure_fifo
  simp only [hstandby, if_false, hs, hc, regmap_bulk_write, regmap.issue]
  generalize adxl372_set_op_mode st map ADXL372_STANDBY = r
  split
  · exact ⟨_, [], rfl⟩
  · have h3 := set_op_mode_stops r.st
      { respond := r.map.respond,
        log := r.map.log ++
          [⟨Txn.bulk_write (ADXL372_REG_WRITE ADXL372_FIFO_SAMPLES)
              [fifo_samples_byte st, fifo_ctl_byte st],
            (r.map.respond r.map.log
              (Txn.bulk_write (ADXL372_REG_WRITE ADXL372_FIFO_SAMPLES)
                [fifo_samples_byte st, fifo_ctl_byte st])).ret⟩] }
      ADXL372_FULL_BW_MEASUREMENT
    obtain ⟨ext, hext, _⟩ := h3
    exact ⟨_, ext, by rw [hext, List.append_assoc]; rfl⟩

/-- The two bytes carry format, mode and watermark, as long as the watermark
fits nine bits: format and mode are read back from their fields of FIFO_CTL
for every watermark, and bit 0 of FIFO_CTL with FIFO_SAMPLES gives the
watermark when it is at most 511. -/
theorem fifo_bytes_decode (st : adxl372_state) :
    fifo_samples_byte st = st.watermark &&& 0xFF
    ∧ fifo_ctl_byte st
        = (st.fifo_format.toNat <<< 3) ||| (st.fifo_mode.toNat <<< 1)
          ||| (if st.watermark > 255 then 1 else 0)
    ∧ (fifo_ctl_byte st >>> 3) &&& 7 = st.fifo_format.toNat
    ∧ (fifo_ctl_byte st >>> 1) &&& 3 = st.fifo_mode.toNat
    ∧ (st.watermark ≤ 511 →
        (fifo_ctl_byte st &&& 1) * 256 + fifo_samples_byte st = st.watermark) := by
  have hsamples : fifo_samples_byte st = st.watermark % 256 := by
    unfold fifo_samples_byte
    have h : st.watermark &&& 0xFF = st.watermark % 256 :=
      Nat.and_pow_two_sub_one_eq_mod st.watermark 8
    rw [h]
    omega
  have hand : st.watermark &&& 0xFF = st.watermark % 256 :=
    Nat.and_pow_two_sub_one_eq_mod st.watermark 8
  obtain ⟨mode, format, _, _, _, _, _, _, _, w⟩ := st
  simp only [] at hsamples hand ⊢
  rw [hsamples, hand]
  unfold fifo_ctl_byte ADXL372_FIFO_CTL_SAMPLES_MODE ADXL372_FIFO_CTL_FORMAT_MODE
    ADXL372_FIFO_CTL_MODE_MODE
  simp only []
  by_cases hw : w > 255
  · have hw' : w > 0xFF := hw
    simp only [hw, hw', if_true]
    refine ⟨trivial, ?_, ?_, ?_, ?_⟩
    · cases format <;> cases mode <;> rfl
    · cases format <;> cases mode <;> rfl
    · cases format <;> cases mode <;> rfl
    · intro h511
      have hb : ∀ (f : adxl372_fifo_format) (m : adxl372_fifo_mode),
          (((f.toNat &&& 0x7) <<< 3 ||| (m.toNat &&& 0x3) <<< 1 ||| 1) % 256 &&& 1) = 1 := by
        intro f m; cases f <;> cases m <;> rfl
      rw [hb]
      omega
  · have hw' : ¬ w > 0xFF := hw
    simp only [hw, hw', if_false]
    refine ⟨trivial, ?_, ?_, ?_, ?_⟩
    · cases format <;> cases mode <;> rfl
    · cases format <;> cases mode <;> rfl
    · cases format <;> cases mode <;> rfl
    · intro _
      have hb : ∀ (f : adxl372_fifo_format) (m : adxl372_fifo_mode),
          (((f.toNat &&& 0x7) <<< 3 ||| (m.toNat &&& 0x3) <<< 1 ||| 0) % 256 &&& 1) = 0 := by
        intro f m; cases f <;> cases m <;> rfl
      rw [hb]
      omega

/-- C14 (code bug, evaluated): the watermark 512, which
`adxl372_set_watermark` admits and `adxl372_buffer_postenable` keeps for a
single axis, is written by `adxl372_configure_fifo` as FIFO_SAMPLES = 0x00
with bit 0 of FIFO_CTL set: the nine bits encode 256, not 512. -/
theorem configure_fifo_watermark_512 :
    (adxl372_buffer_postenable ⟨false, 1, 4⟩ (adxl372_set_watermark adxl372_state.zero 512).2
        (regmap.const 0 [0])).st.watermark = 512
    ∧ (adxl372_buffer_postenable ⟨false, 1, 4⟩ (adxl372_set_watermark adxl372_state.zero 512).2
        (regmap.const 0 [0])).map.log.map (fun x => x.txn)
      = [Txn.bulk_write (ADXL372_REG_WRITE ADXL372_INT1_MAP) [4, 0],
         Txn.read (ADXL372_REG_READ ADXL372_POWER_CTL),
         Txn.write (ADXL372_REG_WRITE ADXL372_POWER_CTL) 0,
         Txn.bulk_write (ADXL372_REG_WRITE ADXL372_FIFO_SAMPLES) [0x00, 0x0B],
         Txn.read (ADXL372_REG_READ ADXL372_POWER_CTL),
         Txn.write (ADXL372_REG_WRITE ADXL372_POWER_CTL) 3]
    ∧ fifo_samples_byte (adxl372_buffer_postenable ⟨false, 1, 4⟩
        (adxl372_set_watermark adxl372_state.zero 512).2 (regmap.const 0 [0])).st = 0x00
    ∧ fifo_ctl_byte (adxl372_buffer_postenable ⟨false, 1, 4⟩
        (adxl372_set_watermark adxl372_state.zero 512).2 (regmap.const 0 [0])).st = 0x0B
    ∧ (0x0B &&& 1) * 256 + 0x00 = 256
    ∧ (0x0B &&& 1) * 256 + 0x00 ≠ 512 := by
  decide

end ADXL372
